import Mathlib

/-!
Verification of the DoomsdayArk on-chain game program (programs/game/src).

The Rust sources are shallowly embedded: every machine integer (u8/u16/u32/u64)
is modelled as a `Nat`, and the `anchor_safe_math` checked operations
(`safe_add`, `safe_sub`, `safe_mul`, `safe_div`) are modelled as `Option Nat`
valued functions that fail exactly when the Rust operation would return an
error (overflow past the corresponding modulus, underflow below zero, or
division by zero).  Fallible Rust functions returning `Result<T>` become
`Option T`; infallible ones stay pure.  Account addresses (`Pubkey`) are
modelled as `Nat` keys.  Token-ledger CPIs (transfer/mint/burn) are external
collaborators; the embedded operations expose the amounts they would move as
explicit result fields instead.
-/

namespace DoomsdayArk

/-- Modulus of the u64 machine integers (2^64). -/
def U64_MOD : Nat := 18446744073709551616

/-- Modulus of the u32 machine integers (2^32). -/
def U32_MOD : Nat := 4294967296

/-- Modulus of the u16 machine integers (2^16). -/
def U16_MOD : Nat := 65536

/-- Modulus of the u8 machine integers (2^8). -/
def U8_MOD : Nat := 256

/-- Checked u64 addition, embedding `anchor_safe_math::SafeMath::safe_add` on u64. -/
def chkAdd (a b : Nat) : Option Nat := if a + b < U64_MOD then some (a + b) else none

/-- Checked subtraction, embedding `safe_sub`: fails on underflow. -/
def chkSub (a b : Nat) : Option Nat := if b ≤ a then some (a - b) else none

/-- Checked u64 multiplication, embedding `safe_mul` on u64. -/
def chkMul (a b : Nat) : Option Nat := if a * b < U64_MOD then some (a * b) else none

/-- Checked division, embedding `safe_div`: fails exactly on division by zero. -/
def chkDiv (a b : Nat) : Option Nat := if b = 0 then none else some (a / b)

/-- Checked u32 addition, embedding `safe_add` on u32. -/
def chkAdd32 (a b : Nat) : Option Nat := if a + b < U32_MOD then some (a + b) else none

/-- Checked u16 addition, embedding `safe_add` on u16. -/
def chkAdd16 (a b : Nat) : Option Nat := if a + b < U16_MOD then some (a + b) else none

/-- Checked u8 addition, embedding `safe_add` on u8. -/
def chkAdd8 (a b : Nat) : Option Nat := if a + b < U8_MOD then some (a + b) else none

/-! Constants from `constants/config.rs`. -/

/-- Basis points denominator from `utils/math.rs`. -/
def BASIS_POINTS_DENOMINATOR : Nat := 100

/-- Seconds per day (`SECONDS_PER_DAY`). -/
def SECONDS_PER_DAY : Nat := 86400

/-- Seconds per year (`SECONDS_PER_YEAR = 365 * SECONDS_PER_DAY`). -/
def SECONDS_PER_YEAR : Nat := 31536000

/-- Per-action countdown extension in seconds (`ACTION_TIME_EXTENSION`). -/
def ACTION_TIME_EXTENSION : Nat := 60

/-- Maximum countdown in seconds (`MAX_COUNTDOWN_SECONDS`). -/
def MAX_COUNTDOWN_SECONDS : Nat := 3600

/-- Lamports per token (`LAMPORTS_PER_TOKEN`). -/
def LAMPORTS_PER_TOKEN : Nat := 1000000

/-- Price of one ORE in tokens (`PRICE_PER_ORE`). -/
def PRICE_PER_ORE : Nat := 1000

/-- Lamports per ORE (`LAMPORTS_PER_ORE = PRICE_PER_ORE * LAMPORTS_PER_TOKEN`). -/
def LAMPORTS_PER_ORE : Nat := PRICE_PER_ORE * LAMPORTS_PER_TOKEN

/-- Construction pool share percentage (`CONSTRUCTION_POOL_SHARE`). -/
def CONSTRUCTION_POOL_SHARE : Nat := 25

/-- Lottery pool share percentage (`LOTTERY_POOL_SHARE`). -/
def LOTTERY_POOL_SHARE : Nat := 10

/-- Referral pool share percentage (`REFERRAL_POOL_SHARE`). -/
def REFERRAL_POOL_SHARE : Nat := 10

/-- Grand prizes pool share percentage (`GRAND_PRIZES_POOL_SHARE`). -/
def GRAND_PRIZES_POOL_SHARE : Nat := 30

/-- Consumption pool share percentage (`CONSUMPTION_POOL_SHARE`). -/
def CONSUMPTION_POOL_SHARE : Nat := 10

/-- Voucher cost of one lottery draw (`ONCE_DRAW_LOTTERY_VOUCHER_COST`). -/
def ONCE_DRAW_LOTTERY_VOUCHER_COST : Nat := 1000 * LAMPORTS_PER_TOKEN

/-- Standard annual percentage rate (`ANNUAL_RATE`). -/
def ANNUAL_RATE : Nat := 100

/-- Reduced APR used on early unlock (`EARLY_UNLOCK_APR`). -/
def EARLY_UNLOCK_APR : Nat := 20

/-- Normal lock duration (`LOCK_DURATION = SECONDS_PER_YEAR`). -/
def LOCK_DURATION : Nat := SECONDS_PER_YEAR

/-- Early unlock duration (`EARLY_UNLOCK_DURATION = SECONDS_PER_DAY`). -/
def EARLY_UNLOCK_DURATION : Nat := SECONDS_PER_DAY

/-! Pure math helpers from `utils/math.rs` and `utils/util.rs`. -/

/-- Embeds `calculate_proportion(amount, proportion) = (amount / 100) * proportion`
with the truncating division performed before the multiplication
(utils/math.rs lines 39-45). -/
def calculate_proportion (amount proportion : Nat) : Option Nat := do
  let q ← chkDiv amount BASIS_POINTS_DENOMINATOR
  chkMul q proportion

/-- Embeds `calculate_prorated_interest(principal, actual_duration, annual_rate)
= principal / 100 * annual_rate * actual_duration / SECONDS_PER_YEAR`
(utils/math.rs lines 17-29). -/
def calculate_prorated_interest (principal actual_duration annual_rate : Nat) :
    Option Nat := do
  let a ← chkDiv principal BASIS_POINTS_DENOMINATOR
  let b ← chkMul a annual_rate
  let c ← chkMul b actual_duration
  chkDiv c SECONDS_PER_YEAR

/-- Embeds `timestamp_to_days(timestamp) = timestamp / SECONDS_PER_DAY` cast to u32
(utils/util.rs lines 10-15). -/
def timestamp_to_days (timestamp : Nat) : Option Nat := do
  let d ← chkDiv timestamp SECONDS_PER_DAY
  some (d % U32_MOD)

/-- The 32-entry reel table `REEL_SYMBOLS` (utils/math.rs lines 84-90). -/
def REEL_SYMBOLS : List Nat :=
  [0,
   1, 2,
   3, 4, 5,
   6, 7, 8, 9,
   10, 11, 12, 13, 14, 15, 16, 17, 18, 19, 20, 21, 22, 23, 24, 25, 26, 27,
   28, 29, 30, 31]

/-- Embeds `get_symbol_id(random_byte) = REEL_SYMBOLS[random_byte % 32]`
(utils/math.rs lines 92-95). -/
def get_symbol_id (random_byte : Nat) : Nat :=
  REEL_SYMBOLS.getD (random_byte % 32) 0

/-- Embeds `calculate_multiplier(symbols)` (utils/math.rs lines 47-82); the
argument is the `[u8; 3]` symbol array. -/
def calculate_multiplier (s1 s2 s3 : Nat) : Nat :=
  if s1 = s2 ∧ s2 = s3 then
    if s1 = 0 then 1000
    else if s1 = 1 ∨ s1 = 2 then 100
    else if 3 ≤ s1 ∧ s1 ≤ 5 then 50
    else if 6 ≤ s1 ∧ s1 ≤ 9 then 20
    else 0
  else
    let cherry_count := [s1, s2, s3].countP (fun x => x = 1 ∨ x = 2)
    if 0 < cherry_count ∧ cherry_count < 3 then 3 * cherry_count
    else
      let bell_count := [s1, s2, s3].countP (fun x => 3 ≤ x ∧ x ≤ 5)
      if bell_count = 2 then 6
      else
        let lemon_count := [s1, s2, s3].countP (fun x => 6 ≤ x ∧ x ≤ 9)
        if lemon_count = 2 then 3
        else 0

/-! The `PlayerData` account (state/player.rs). -/

/-- Embeds the `PlayerData` account state (state/player.rs).  The
`token_account`, `voucher_account` and `randomness_provider` address fields
are omitted: they only wire accounts together and are never read by the
embedded arithmetic. -/
structure PlayerData where
  player : Nat := 0
  nonce : Nat := 0
  team : Nat := 0
  team_applications : List Nat := []
  can_apply_to_team_timestamp : Nat := 0
  referrer : Nat := 0
  referral_count : Nat := 0
  collectable_referral_rewards : Nat := 0
  collected_referral_rewards : Nat := 0
  current_round : Nat := 0
  current_period : Nat := 0
  current_period_purchased_ores : Nat := 0
  is_exited : Bool := false
  earnings_per_ore : Nat := 0
  collectable_construction_rewards : Nat := 0
  available_ores : Nat := 0
  purchased_ores : Nat := 0
  is_auto_reinvesting : Bool := false
  consecutive_purchased_days : Nat := 0
  last_purchased_day : Nat := 0
  last_collected_airdrop_reward_day : Nat := 0
  collected_airdrop_rewards : Nat := 0
  commit_slot : Nat := 0
  spin_symbols : List Nat := [0, 0, 0]
  result_multiplier : Nat := 0
  result_revealed : Bool := false
  collected_construction_rewards : Nat := 0
  collected_grand_prizes : Nat := 0
  collectable_consumption_rewards : Nat := 0
  collected_consumption_rewards : Nat := 0
  collected_exit_rewards : Nat := 0
  collected_lottery_rewards : Nat := 0
  collected_individual_rewards : Nat := 0
  collected_team_rewards : Nat := 0
deriving DecidableEq, Repr, Inhabited

/-- Embeds `PlayerData::settle_collectable_construction_rewards`
(state/player.rs lines 287-299): the earnings-per-ore delta since the
player's snapshot, multiplied by the player's available ores, is added to the
collectable construction rewards, and the snapshot is advanced. -/
def PlayerData.settle_collectable_construction_rewards
    (p : PlayerData) (round_earnings_per_ore : Nat) : Option PlayerData := do
  let delta_earnings_per_ore ← chkSub round_earnings_per_ore p.earnings_per_ore
  let additional_rewards_fraction ← chkMul delta_earnings_per_ore p.available_ores
  let c ← chkAdd p.collectable_construction_rewards additional_rewards_fraction
  some { p with
    earnings_per_ore := round_earnings_per_ore
    collectable_construction_rewards := c }

/-- Embeds `PlayerData::collect_grand_prizes` (state/player.rs lines 258-261). -/
def PlayerData.collect_grand_prizes (p : PlayerData) (grand_prizes : Nat) :
    Option PlayerData := do
  let c ← chkAdd p.collected_grand_prizes grand_prizes
  some { p with collected_grand_prizes := c }

/-- Embeds `PlayerData::collect_individual_rewards` (state/player.rs lines 271-276). -/
def PlayerData.collect_individual_rewards (p : PlayerData) (individual_rewards : Nat) :
    Option PlayerData := do
  let c ← chkAdd p.collected_individual_rewards individual_rewards
  some { p with collected_individual_rewards := c }

/-- Concrete player used by the C2 witness. -/
def c2Player : PlayerData :=
  { earnings_per_ore := 2, available_ores := 5, collectable_construction_rewards := 7 }

/-- Settled form of `c2Player` against a round accumulator of 10. -/
def c2Settled : PlayerData :=
  (c2Player.settle_collectable_construction_rewards 10).getD default

/-! The `Round` account (state/round.rs). -/

/-- Embeds the `Round` account state (state/round.rs).  The `round_vault`
address and PDA `bump` are account-wiring details and are omitted. -/
structure Round where
  round_number : Nat := 0
  start_time : Nat := 0
  end_time : Nat := 0
  last_call_slot : Nat := 0
  call_count : Nat := 0
  earnings_per_ore : Nat := 0
  sold_ores : Nat := 0
  available_ores : Nat := 0
  grand_prize_pool_balance : Nat := 0
  first_grand_prizes : Nat := 0
  second_grand_prizes : Nat := 0
  distributed_grand_prizes : Nat := 0
  grand_prize_distribution_index : Nat := 0
  last_active_participant_list : List Nat := []
  auto_reinvesting_players : Nat := 0
  is_over : Bool := false
  is_grand_prize_distribution_completed : Bool := false
  last_collected_exit_reward_timestamp : Nat := 0
  last_collected_sugar_rush_reward_timestamp : Nat := 0
deriving DecidableEq, Repr, Inhabited

/-- Maximum number of last active participants (`MAX_LAST_ACTIVE_PARTICIPANT_LIST`). -/
def MAX_LAST_ACTIVE_PARTICIPANT_LIST : Nat := 10

/-- Total number of grand prize winners (`TOTAL_WINNERS`). -/
def TOTAL_WINNERS : Nat := 10

/-- Embeds `Round::update_end_time` (state/round.rs lines 129-153): resets the
round-end confirmation counters, then extends the countdown by
`ACTION_TIME_EXTENSION`, never pushing `end_time` beyond
`current_time + MAX_COUNTDOWN_SECONDS`; if more than `MAX_COUNTDOWN_SECONDS`
already remain, the end time is left untouched. -/
def Round.update_end_time (r : Round) (current_time : Nat) : Option Round :=
  let r := { r with last_call_slot := 0, call_count := 0 }
  if current_time > r.end_time then do
    let e ← chkAdd current_time ACTION_TIME_EXTENSION
    some { r with end_time := e }
  else do
    let remaining ← chkSub r.end_time current_time
    if remaining > MAX_COUNTDOWN_SECONDS then
      some r
    else do
      let extended_time ← chkAdd (max r.end_time current_time) ACTION_TIME_EXTENSION
      let max_end_time ← chkAdd current_time MAX_COUNTDOWN_SECONDS
      some { r with end_time := min extended_time max_end_time }

/-- Embeds `Round::update_last_active_participant_list` (state/round.rs lines
160-170): remove the player if present, drop the oldest entry when the list
is full, then insert the player at the front.  The Rust function returns
`Result<()>` but cannot fail. -/
def Round.update_last_active_participant_list (r : Round) (player : Nat) : Round :=
  let l := r.last_active_participant_list.filter (fun x => x ≠ player)
  let l := if l.length ≥ MAX_LAST_ACTIVE_PARTICIPANT_LIST then l.dropLast else l
  { r with last_active_participant_list := player :: l }

/-- Embeds `Round::calculate_prize_amounts` (state/round.rs lines 213-221):
half the pool to the first winner plus a tenth of the half, and a tenth of
the half to each remaining winner. -/
def Round.calculate_prize_amounts (r : Round) : Option Round := do
  let half_prize ← chkDiv r.grand_prize_pool_balance 2
  let shared_prize ← chkDiv half_prize TOTAL_WINNERS
  let first ← chkAdd half_prize shared_prize
  some { r with first_grand_prizes := first, second_grand_prizes := shared_prize }

/-- Embeds `Round::distribute_grand_prizes` (state/round.rs lines 179-209),
returning the updated round and the reward amount paid by this call. -/
def Round.distribute_grand_prizes (r : Round) : Option (Round × Nat) := do
  let r ← if r.grand_prize_distribution_index = 0 then r.calculate_prize_amounts else some r
  let reward_amount :=
    if r.grand_prize_distribution_index = 0 then r.first_grand_prizes
    else r.second_grand_prizes
  if r.grand_prize_pool_balance < reward_amount then none else do
  let pool ← chkSub r.grand_prize_pool_balance reward_amount
  let dist ← chkAdd r.distributed_grand_prizes reward_amount
  let idx ← chkAdd8 r.grand_prize_distribution_index 1
  let r := { r with
    grand_prize_pool_balance := pool
    distributed_grand_prizes := dist
    grand_prize_distribution_index := idx }
  let r := if r.grand_prize_distribution_index = TOTAL_WINNERS then
    { r with is_grand_prize_distribution_completed := true } else r
  some (r, reward_amount)

/-! The `Period` account (state/period.rs). -/

/-- Number of top player winners kept per period (`PLAYER_WINNERS_COUNT`). -/
def PLAYER_WINNERS_COUNT : Nat := 10

/-- Number of top team winners kept per period (`TEAM_WINNERS_COUNT`). -/
def TEAM_WINNERS_COUNT : Nat := 10

/-- Embeds `TopPlayerAccount` (state/period.rs lines 62-68). -/
structure TopPlayerAccount where
  player : Nat := 0
  purchased_ores : Nat := 0
deriving DecidableEq, Repr, Inhabited

/-- Embeds `TopTeamAccount` (state/period.rs lines 74-80). -/
structure TopTeamAccount where
  team : Nat := 0
  purchased_ores : Nat := 0
deriving DecidableEq, Repr, Inhabited

/-- Embeds the `Period` account state (state/period.rs).  The `period_vault`
address and PDA `bump` are omitted. -/
structure Period where
  period_number : Nat := 0
  team_reward_pool_balance : Nat := 0
  individual_reward_pool_balance : Nat := 0
  start_time : Nat := 0
  end_time : Nat := 0
  top_player_list : List TopPlayerAccount := []
  top_team_list : List TopTeamAccount := []
  team_rewards : Nat := 0
  team_first_place_rewards : Nat := 0
  team_second_place_rewards : Nat := 0
  team_third_place_rewards : Nat := 0
  individual_rewards : Nat := 0
  is_distribution_completed : Bool := false
deriving DecidableEq, Repr, Inhabited

/-- Embeds `Period::is_ongoing` (state/period.rs lines 163-165). -/
def Period.is_ongoing (p : Period) (current_time : Nat) : Bool :=
  p.start_time ≤ current_time && current_time < p.end_time

/-- Embeds `Period::mark_distribution_completed` (state/period.rs lines
234-241): fails when the distribution was already completed. -/
def Period.mark_distribution_completed (p : Period) : Option Period :=
  if p.is_distribution_completed then none
  else some { p with is_distribution_completed := true }

/-! Round-end confirmation logic (instructions/player/purchase.rs). -/

/-- Embeds `handle_round_end` (instructions/player/purchase.rs lines 459-492):
a zero-purchase call after the round's end time is a silent no-op unless at
least 150 slots have passed since `last_call_slot`; a spaced call increments
`call_count`, and the tenth confirmation marks the round over and closes the
current period. -/
def handle_round_end (current_round : Round) (current_period : Period)
    (current_slot timestamp : Nat) : Option (Round × Period) := do
  let threshold ← chkAdd current_round.last_call_slot 150
  if current_slot < threshold then
    some (current_round, current_period)
  else
    let r := { current_round with
      last_call_slot := current_slot
      call_count := current_round.call_count + 1 }
    if r.call_count ≥ 10 then
      let r := { r with is_over := true }
      let p :=
        if current_period.is_ongoing timestamp then
          { current_period with end_time := timestamp }
        else if current_period.start_time > timestamp then
          { current_period with start_time := timestamp, end_time := timestamp }
        else current_period
      some (r, p)
    else
      some (r, current_period)

/-- Iterates `handle_round_end` over a list of (slot, timestamp) calls. -/
def run_round_end_calls (r : Round) (p : Period) :
    List (Nat × Nat) → Option (Round × Period)
  | [] => some (r, p)
  | c :: rest => do
      let (r', p') ← handle_round_end r p c.1 c.2
      run_round_end_calls r' p' rest

/-- Counts the calls of a slot sequence that are spaced at least 150 slots
after the previous counted call (starting from `last`), mirroring the
acceptance condition of `handle_round_end`. -/
def count_spaced_calls (last : Nat) : List Nat → Nat
  | [] => 0
  | s :: rest =>
      if s < last + 150 then count_spaced_calls last rest
      else count_spaced_calls s rest + 1

/-! Leaderboard maintenance (state/period.rs lines 174-219).  The two Rust
methods `update_top_player` and `update_top_team_list` are the same
find-or-insert / stable-descending-sort / truncate algorithm on two record
types, factored here over the key and metric accessors. -/

section TopK

variable {α : Type}

/-- Embeds the `iter_mut().find(..)`-then-set-or-push step shared by
`Period::update_top_player` and `Period::update_top_team_list`: the first
entry with the given key has its metric overwritten, otherwise a new entry is
pushed at the end. -/
def upsertBy (key : α → Nat) (set : α → Nat → α) (mk : Nat → Nat → α) :
    List α → Nat → Nat → List α
  | [], k, v => [mk k v]
  | e :: t, k, v =>
      if key e = k then set e v :: t else e :: upsertBy key set mk t k v

/-- Descending comparison on the metric; Rust's
`sort_by(|a, b| b.metric.cmp(&a.metric))` sorts into exactly this order. -/
def metricDesc (metric : α → Nat) (a b : α) : Prop := metric b ≤ metric a

instance (metric : α → Nat) : DecidableRel (metricDesc metric) :=
  fun a b => Nat.decLe (metric b) (metric a)

instance (metric : α → Nat) : IsTotal α (metricDesc metric) :=
  ⟨fun a b => le_total (metric b) (metric a)⟩

instance (metric : α → Nat) : IsTrans α (metricDesc metric) :=
  ⟨fun _ _ _ h1 h2 => le_trans h2 h1⟩

/-- Inserts an element into a descending list after every element of equal
metric: the position a stable descending sort gives the latest arrival. -/
def insEnd (metric : α → Nat) (e : α) : List α → List α
  | [] => [e]
  | b :: l => if metric b < metric e then e :: b :: l else b :: insEnd metric e l



/-- Embeds the shared body of `Period::update_top_player` and
`Period::update_top_team_list`: find-or-insert by key, set the metric, sort
descending, truncate to the winner count.  Rust's `sort_by` is a stable
sort, and so is Mathlib's `List.insertionSort`; since stable sorting is
unique, the two agree. -/
def updateTopBy (key metric : α → Nat) (set : α → Nat → α) (mk : Nat → Nat → α)
    (l : List α) (k v cap : Nat) : List α :=
  let l := upsertBy key set mk l k v
  let l := l.insertionSort (metricDesc metric)
  if l.length > cap then l.take cap else l

end TopK

/-- Embeds `Period::update_top_player` (state/period.rs lines 174-193). -/
def Period.update_top_player (p : Period) (player purchased_ores : Nat) : Period :=
  let l := updateTopBy TopPlayerAccount.player TopPlayerAccount.purchased_ores
    (fun e v => { e with purchased_ores := v }) (fun k v => ⟨k, v⟩)
    p.top_player_list player purchased_ores PLAYER_WINNERS_COUNT
  { p with top_player_list := l }

/-- Embeds `Period::update_top_team_list` (state/period.rs lines 201-219). -/
def Period.update_top_team_list (p : Period) (team purchased_ores : Nat) : Period :=
  let l := updateTopBy TopTeamAccount.team TopTeamAccount.purchased_ores
    (fun e v => { e with purchased_ores := v }) (fun k v => ⟨k, v⟩)
    p.top_team_list team purchased_ores TEAM_WINNERS_COUNT
  { p with top_team_list := l }

/-! The `Game` singleton (state/game.rs) and the `Team` account (state/team.rs),
restricted to the fields the embedded operations read or write. -/

/-- Embeds the `Game` account state (state/game.rs); pool balances and
counters not touched by any embedded operation are omitted, as are the
authority/vault wiring addresses. -/
structure Game where
  default_team : Nat := 0
  default_player : Nat := 0
  current_round : Nat := 0
  current_period : Nat := 0
  construction_rewards_pool_balance : Nat := 0
  bonus_rewards_pool_balance : Nat := 0
  lottery_rewards_pool_balance : Nat := 0
  developer_rewards_pool_balance : Nat := 0
  referral_rewards_pool_balance : Nat := 0
  consumption_rewards_pool_balance : Nat := 0
  distributable_consumption_rewards : Nat := 0
  distributed_consumption_rewards : Nat := 0
  distributed_lottery_rewards : Nat := 0
  distributed_grand_prizes : Nat := 0
  distributed_individual_rewards : Nat := 0
  distributed_team_rewards : Nat := 0
  distributed_stake_rewards : Nat := 0
  event_nonce : Nat := 0
deriving DecidableEq, Repr, Inhabited

/-- Embeds `Game::increment_event_nonce` (state/game.rs lines 171-174). -/
def Game.increment_event_nonce (g : Game) : Option Game := do
  let n ← chkAdd32 g.event_nonce 1
  some { g with event_nonce := n }

/-- Embeds the `Team` account state (state/team.rs), restricted to the
accounting fields mutated by the embedded operations. -/
structure Team where
  purchased_ores : Nat := 0
  current_period : Nat := 0
  current_period_purchased_ores : Nat := 0
  last_updated_timestamp : Nat := 0
  distributable_team_rewards : Nat := 0
deriving DecidableEq, Repr, Inhabited

/-! The purchase instruction (instructions/player/purchase.rs lines 125-455). -/

/-- Result of a successful `purchase` call.  The `*_rewards` and `*_cost`
fields expose the amounts computed at purchase.rs lines 199-218, and the two
`transfer_*` fields the vault transfer amounts of lines 387-433;
`burned_referral` is the amount burned when the player has no referrer
(lines 411-424).  `round_end_call` marks the early-returning zero-purchase
round-end branch (lines 160-177). -/
structure PurchaseResult where
  game : Game
  round : Round
  period : Period
  team : Team
  player_data : PlayerData
  referrer_data : PlayerData
  construction_rewards : Nat := 0
  bonus_rewards : Nat := 0
  lottery_rewards : Nat := 0
  referral_rewards : Nat := 0
  grand_prizes_rewards : Nat := 0
  consumption_rewards : Nat := 0
  developer_rewards : Nat := 0
  voucher_cost : Nat := 0
  token_cost : Nat := 0
  transfer_to_game_vault : Nat := 0
  transfer_to_round_vault : Nat := 0
  burned_referral : Nat := 0
  round_end_call : Bool := false
deriving DecidableEq, Repr, Inhabited

/-- Embeds purchase.rs lines 231-238: the consecutive-purchase-day streak
value after a purchase on `current_day`. -/
def purchase_streak_value (player_data : PlayerData) (current_day : Nat) :
    Option Nat :=
  if player_data.last_purchased_day ≠ current_day then
    if player_data.last_purchased_day + 1 = current_day then
      chkAdd16 player_data.consecutive_purchased_days 1
    else some 1
  else some player_data.consecutive_purchased_days

/-- Embeds purchase.rs lines 224-241: update the player's round/period
membership, period counter reset, consecutive-purchase-day streak, and exit
flag. -/
def purchase_player_day_update (game : Game) (player_data : PlayerData)
    (current_day : Nat) : Option PlayerData := do
  let player_data := { player_data with current_round := game.current_round }
  let player_data :=
    if player_data.current_period ≠ game.current_period then
      { player_data with current_period_purchased_ores := 0 }
    else player_data
  let player_data := { player_data with current_period := game.current_period }
  let d ← purchase_streak_value player_data current_day
  some { player_data with
    consecutive_purchased_days := d
    last_purchased_day := current_day
    is_exited := false }

/-- Embeds purchase.rs lines 249-260: with outstanding ore the construction
and bonus shares are credited to the game pools, otherwise both are added to
the round's grand prize pool. -/
def purchase_pool_credit (game : Game) (current_round : Round)
    (current_ores construction_rewards bonus_rewards : Nat) :
    Option (Game × Round) :=
  if current_ores > 0 then do
    let c ← chkAdd game.construction_rewards_pool_balance construction_rewards
    let b ← chkAdd game.bonus_rewards_pool_balance bonus_rewards
    some ({ game with
      construction_rewards_pool_balance := c
      bonus_rewards_pool_balance := b }, current_round)
  else do
    let gp ← chkAdd current_round.grand_prize_pool_balance construction_rewards
    let gp ← chkAdd gp bonus_rewards
    some (game, { current_round with grand_prize_pool_balance := gp })

/-- Embeds purchase.rs lines 264-268: the referral share is pooled only when
the player has a real referrer. -/
def purchase_referral_credit (game : Game) (referrer referral_rewards : Nat) :
    Option Game :=
  if referrer ≠ game.default_player then do
    let rp ← chkAdd game.referral_rewards_pool_balance referral_rewards
    some { game with referral_rewards_pool_balance := rp }
  else some game

/-- Embeds purchase.rs lines 275-282: with outstanding ore the accumulator
accrues the construction share divided by `max(available_ores, 1)`. -/
def purchase_accrue (current_round : Round) (current_ores construction_rewards : Nat) :
    Option Round :=
  if current_ores > 0 then do
    let available_ores := max current_round.available_ores 1
    let earnings_per_ore_increment ← chkDiv construction_rewards available_ores
    let e ← chkAdd current_round.earnings_per_ore earnings_per_ore_increment
    some { current_round with earnings_per_ore := e }
  else some current_round

/-- Embeds purchase.rs lines 248-282: credit the game-level construction and
bonus pools (or, when no ore is outstanding, the round's grand prize pool),
the lottery and referral pools, the round's grand prize share, and accrue
`earnings_per_ore` when ore is outstanding. -/
def purchase_pool_update (game : Game) (current_round : Round)
    (referrer : Nat) (current_ores construction_rewards bonus_rewards
      lottery_rewards referral_rewards grand_prizes_rewards : Nat) :
    Option (Game × Round) := do
  let gr ← purchase_pool_credit game current_round current_ores
    construction_rewards bonus_rewards
  let lp ← chkAdd gr.1.lottery_rewards_pool_balance lottery_rewards
  let game := { gr.1 with lottery_rewards_pool_balance := lp }
  let game ← purchase_referral_credit game referrer referral_rewards
  let gp2 ← chkAdd gr.2.grand_prize_pool_balance grand_prizes_rewards
  let current_round := { gr.2 with grand_prize_pool_balance := gp2 }
  let current_round ← purchase_accrue current_round current_ores
    construction_rewards
  some (game, current_round)

/-- Embeds purchase.rs lines 284-295: add the sold ore to the round, record
the participant, extend the countdown, settle the player's pending
construction rewards against the new accumulator, then add the new ore to
the player. -/
def purchase_round_update (current_round : Round) (player_data : PlayerData)
    (player purchased_ores timestamp : Nat) : Option (Round × PlayerData) := do
  let av ← chkAdd32 current_round.available_ores purchased_ores
  let so ← chkAdd32 current_round.sold_ores purchased_ores
  let current_round := { current_round with available_ores := av, sold_ores := so }
  let current_round := current_round.update_last_active_participant_list player
  let current_round ← current_round.update_end_time timestamp
  let player_data ←
    player_data.settle_collectable_construction_rewards current_round.earnings_per_ore
  let pav ← chkAdd32 player_data.available_ores purchased_ores
  let ppu ← chkAdd32 player_data.purchased_ores purchased_ores
  some (current_round,
    { player_data with available_ores := pav, purchased_ores := ppu })

/-- Embeds purchase.rs lines 297-322: credit the referrer's pending referral
rewards, update the team's ore counters, and update the period leaderboards
while the period is ongoing. -/
def purchase_team_period_update (game : Game) (current_period : Period)
    (team : Team) (player_data referrer_data : PlayerData)
    (player team_key purchased_ores timestamp referral_rewards : Nat) :
    Option (Period × Team × PlayerData × PlayerData) := do
  let referrer_data ←
    if player_data.referrer ≠ game.default_player then do
      let cr ← chkAdd referrer_data.collectable_referral_rewards referral_rewards
      some { referrer_data with collectable_referral_rewards := cr }
    else some referrer_data
  let tpo ← chkAdd32 team.purchased_ores purchased_ores
  let team := { team with purchased_ores := tpo, last_updated_timestamp := timestamp }
  if current_period.is_ongoing timestamp then do
    let ppp ← chkAdd32 player_data.current_period_purchased_ores purchased_ores
    let player_data := { player_data with current_period_purchased_ores := ppp }
    let current_period :=
      current_period.update_top_player player player_data.current_period_purchased_ores
    let tpp ← chkAdd32 team.current_period_purchased_ores purchased_ores
    let team := { team with current_period_purchased_ores := tpp }
    let current_period :=
      if player_data.team ≠ game.default_team then
        current_period.update_top_team_list team_key team.current_period_purchased_ores
      else current_period
    some (current_period, team, player_data, referrer_data)
  else some (current_period, team, player_data, referrer_data)

/-- Embeds purchase.rs lines 324-339: move the developer share out of the
consumption pool when the pool and budget suffice. -/
def purchase_developer_credit (game : Game) (developer_rewards : Nat) :
    Option Game :=
  if developer_rewards > 0
      ∧ game.consumption_rewards_pool_balance ≥ developer_rewards then do
    let a ← chkSub game.consumption_rewards_pool_balance developer_rewards
    let b ← chkSub game.distributable_consumption_rewards developer_rewards
    let c ← chkAdd game.developer_rewards_pool_balance developer_rewards
    some { game with
      consumption_rewards_pool_balance := a
      distributable_consumption_rewards := b
      developer_rewards_pool_balance := c }
  else some game

/-- Embeds purchase.rs lines 341-354: credit consumption rewards to the
player when the distributable budget suffices. -/
def purchase_consumption_credit (game : Game) (player_data : PlayerData)
    (consumption_rewards : Nat) : Option (Game × PlayerData) :=
  if consumption_rewards > 0
      ∧ game.distributable_consumption_rewards ≥ consumption_rewards then do
    let a ← chkSub game.distributable_consumption_rewards consumption_rewards
    let b ← chkAdd player_data.collectable_consumption_rewards consumption_rewards
    some ({ game with distributable_consumption_rewards := a },
      { player_data with collectable_consumption_rewards := b })
  else some (game, player_data)

/-- Embeds purchase.rs lines 324-354: the developer and consumption reward
moves, in source order. -/
def purchase_consumption_update (game : Game) (player_data : PlayerData)
    (developer_rewards consumption_rewards : Nat) :
    Option (Game × PlayerData) := do
  let game ← purchase_developer_credit game developer_rewards
  purchase_consumption_credit game player_data consumption_rewards

/-- Embeds purchase.rs lines 387-399: the amounts transferred to the game
vault and to the round vault; with no outstanding ore the construction and
bonus shares go to the round vault instead of the game vault. -/
def purchase_transfer_amounts (current_ores construction_rewards bonus_rewards
    lottery_rewards referral_rewards grand_prizes_rewards : Nat) :
    Option (Nat × Nat) := do
  let t1 ← chkAdd lottery_rewards referral_rewards
  if current_ores > 0 then do
    let t ← chkAdd t1 construction_rewards
    let t ← chkAdd t bonus_rewards
    some (t, grand_prizes_rewards)
  else do
    let t ← chkAdd grand_prizes_rewards construction_rewards
    let t ← chkAdd t bonus_rewards
    some (t1, t)

/-- Embeds purchase.rs lines 192-207: total cost in lamports, the voucher /
token split of the payment, and the balance sufficiency check. -/
def purchase_costs (lamports_per_ore purchased_ores voucher_balance token_balance :
    Nat) : Option (Nat × Nat × Nat) := do
  let total_cost ← chkMul lamports_per_ore purchased_ores
  let voucher_cost := min voucher_balance total_cost
  let token_cost ← chkSub total_cost voucher_cost
  let player_balance ← chkAdd token_balance voucher_balance
  if ¬ (player_balance ≥ total_cost) then none else
  some (total_cost, voucher_cost, token_cost)

/-- Embeds purchase.rs lines 212-218: the six proportional pool shares of a
purchase, in source order (construction, lottery, referral, grand prizes,
consumption, developer); the bonus share equals the construction share. -/
def purchase_shares (total_cost token_cost : Nat) :
    Option (Nat × Nat × Nat × Nat × Nat × Nat) := do
  let construction_rewards ← calculate_proportion total_cost CONSTRUCTION_POOL_SHARE
  let lottery_rewards ← calculate_proportion total_cost LOTTERY_POOL_SHARE
  let referral_rewards ← calculate_proportion total_cost REFERRAL_POOL_SHARE
  let grand_prizes_rewards ← calculate_proportion total_cost GRAND_PRIZES_POOL_SHARE
  let consumption_rewards ← calculate_proportion token_cost CONSUMPTION_POOL_SHARE
  let developer_rewards ← calculate_proportion token_cost CONSUMPTION_POOL_SHARE
  some (construction_rewards, lottery_rewards, referral_rewards,
    grand_prizes_rewards, consumption_rewards, developer_rewards)

/-- Embeds purchase.rs lines 242-246: reset the team's period counter when it
enters a new period. -/
def purchase_team_period_reset (game : Game) (team : Team) : Team :=
  let team :=
    if team.current_period ≠ game.current_period then
      { team with current_period_purchased_ores := 0 }
    else team
  { team with current_period := game.current_period }

/-- Result bundle of `purchase_settlement`, the post-check part of the
purchase handler. -/
structure PurchaseSettlement where
  game : Game
  round : Round
  period : Period
  team : Team
  player_data : PlayerData
  referrer_data : PlayerData
deriving DecidableEq, Repr, Inhabited

/-- Embeds purchase.rs lines 224-354, chaining the state-update phases in
source order. -/
def purchase_settlement (game : Game) (current_round : Round)
    (current_period : Period) (team : Team) (player_data referrer_data : PlayerData)
    (player team_key purchased_ores timestamp : Nat)
    (shares : Nat × Nat × Nat × Nat × Nat × Nat) (current_day : Nat) :
    Option PurchaseSettlement := do
  let current_ores := current_round.available_ores
  let player_data ← purchase_player_day_update game player_data current_day
  let team := purchase_team_period_reset game team
  let gr ← purchase_pool_update game current_round player_data.referrer current_ores
    shares.1 shares.1 shares.2.1 shares.2.2.1 shares.2.2.2.1
  let rp ← purchase_round_update gr.2 player_data player purchased_ores timestamp
  let quad ← purchase_team_period_update gr.1 current_period team rp.2 referrer_data
    player team_key purchased_ores timestamp shares.2.2.1
  let gp ← purchase_consumption_update gr.1 quad.2.2.1 shares.2.2.2.2.2
    shares.2.2.2.2.1
  some { game := gp.1, round := rp.1, period := quad.1, team := quad.2.1,
         player_data := gp.2, referrer_data := quad.2.2.2 }

/-- Embeds the active-purchase path of the `purchase` instruction handler
(instructions/player/purchase.rs lines 179-455), parameterized by the ORE
unit price (the deployed constant is `LAMPORTS_PER_ORE`).  The round and
period account keys are `game.current_round` and `game.current_period` (the
`has_one` constraints); `team_key` is the address of the player's team
account.  `voucher_balance` and `token_balance` are the balances of the
player's voucher and token accounts.  Ledger CPIs (voucher burn/redeem,
vault transfers) are exposed in the result fields instead of being
performed. -/
def purchase_active (lamports_per_ore : Nat) (game : Game) (current_round : Round)
    (current_period : Period) (team : Team) (player_data referrer_data : PlayerData)
    (player team_key purchased_ores timestamp voucher_balance token_balance : Nat) :
    Option PurchaseResult := do
  if ¬ (purchased_ores > 0) then none else
  if ¬ (player_data.is_exited ∨ player_data.current_round = game.current_round) then none
  else do
  let costs ← purchase_costs lamports_per_ore purchased_ores voucher_balance
    token_balance
  let current_ores := current_round.available_ores
  let shares ← purchase_shares costs.1 costs.2.2
  let current_day ← timestamp_to_days timestamp
  let s ← purchase_settlement game current_round current_period team player_data
    referrer_data player team_key purchased_ores timestamp shares current_day
  let transfers ← purchase_transfer_amounts current_ores shares.1 shares.1
    shares.2.1 shares.2.2.1 shares.2.2.2.1
  let burned_referral :=
    if s.player_data.referrer = s.game.default_player then shares.2.2.1 else 0
  some { game := s.game, round := s.round, period := s.period, team := s.team,
         player_data := s.player_data, referrer_data := s.referrer_data,
         construction_rewards := shares.1, bonus_rewards := shares.1,
         lottery_rewards := shares.2.1, referral_rewards := shares.2.2.1,
         grand_prizes_rewards := shares.2.2.2.1,
         consumption_rewards := shares.2.2.2.2.1,
         developer_rewards := shares.2.2.2.2.2,
         voucher_cost := costs.2.1, token_cost := costs.2.2,
         transfer_to_game_vault := transfers.1,
         transfer_to_round_vault := transfers.2,
         burned_referral := burned_referral, round_end_call := false }

/-- Embeds the entry checks and round-end routing of the `purchase` handler
(purchase.rs lines 125-190): the round must not be over and must have
started, the event nonce is bumped, and a zero-purchase call past the end
time is routed to `handle_round_end`; otherwise the active-purchase path
runs. -/
def purchase_core (lamports_per_ore : Nat) (game : Game) (current_round : Round)
    (current_period : Period) (team : Team) (player_data referrer_data : PlayerData)
    (player team_key purchased_ores timestamp current_slot
      voucher_balance token_balance : Nat) :
    Option PurchaseResult := do
  if current_round.is_over then none else
  if ¬ (current_round.start_time ≤ timestamp) then none else do
  let game ← game.increment_event_nonce
  if current_round.end_time ≤ timestamp ∧ purchased_ores = 0 then do
    let rp ← handle_round_end current_round current_period current_slot timestamp
    some { game := game, round := rp.1, period := rp.2, team := team,
           player_data := player_data, referrer_data := referrer_data,
           round_end_call := true }
  else
    purchase_active lamports_per_ore game current_round current_period team
      player_data referrer_data player team_key purchased_ores timestamp
      voucher_balance token_balance

/-! Staking (state/stake.rs and instructions/stake/request_early_unstake.rs). -/

/-- Embeds the `StakeOrder` account state (state/stake.rs lines 151-189);
`stake_order_vault` and `bump` are omitted. -/
structure StakeOrder where
  stake_number : Nat := 0
  stake_amount : Nat := 0
  token_rewards : Nat := 0
  voucher_rewards : Nat := 0
  created_timestamp : Nat := 0
  unstaked_timestamp : Nat := 0
  annual_rate : Nat := 0
  lock_duration : Nat := 0
  is_early_unstaked : Bool := false
  is_completed : Bool := false
deriving DecidableEq, Repr, Inhabited

/-- Embeds `StakeOrder::request_early_unstake` (state/stake.rs lines 245-267):
once per order, recompute the rewards at the reduced rate over the elapsed
time and shorten the unlock time to now plus the early unlock duration. -/
def StakeOrder.request_early_unstake (o : StakeOrder)
    (current_timestamp early_unstake_rate early_unlock_duration : Nat) :
    Option StakeOrder := do
  if o.is_early_unstaked then none else do
  let elapsed_time ← chkSub current_timestamp o.created_timestamp
  let new_token_rewards ←
    calculate_prorated_interest o.stake_amount elapsed_time early_unstake_rate
  let ts ← chkAdd current_timestamp early_unlock_duration
  some { o with
    lock_duration := elapsed_time
    token_rewards := new_token_rewards
    voucher_rewards := 0
    annual_rate := early_unstake_rate
    unstaked_timestamp := ts
    is_early_unstaked := true }

/-- Embeds the `StakePool` account state (state/stake.rs lines 17-65);
vault addresses are omitted. -/
structure StakePool where
  staked_amount : Nat := 0
  distributed_token_rewards : Nat := 0
  burned_token_rewards : Nat := 0
  distributed_voucher_rewards : Nat := 0
  burned_voucher_rewards : Nat := 0
  token_rewards_pool_balance : Nat := 0
  voucher_rewards_pool_balance : Nat := 0
  distributable_token_rewards : Nat := 0
  one_shard : Nat := 0
  annual_rate : Nat := 0
  early_unlock_rate : Nat := 0
  lock_duration : Nat := 0
  early_unlock_duration : Nat := 0
  active_orders : Nat := 0
deriving DecidableEq, Repr, Inhabited

/-- Result of a successful early-unstake request: the updated game, pool and
order, and the token / voucher reward amounts clawed back and burned. -/
structure EarlyUnstakeResult where
  game : Game
  stake_pool : StakePool
  stake_order : StakeOrder
  burned_token_rewards : Nat := 0
  burned_voucher_rewards : Nat := 0
deriving DecidableEq, Repr, Inhabited

/-- Embeds the first half of the `request_early_unstake` instruction handler
(instructions/stake/request_early_unstake.rs lines 100-161): the order and
time checks, the order mutation, and the computation of the clawed-back
reward amounts. -/
def request_early_unstake_order (player_data : PlayerData)
    (stake_pool : StakePool) (stake_order : StakeOrder)
    (order_number timestamp voucher_balance : Nat) :
    Option (StakeOrder × Nat × Nat) := do
  if ¬ (player_data.nonce ≥ order_number) then none else
  if stake_order.is_completed then none else
  if stake_order.is_early_unstaked then none else
  if ¬ (timestamp < stake_order.unstaked_timestamp) then none else
  if ¬ (stake_order.stake_amount ≤ voucher_balance) then none else do
  let token_rewards := stake_order.token_rewards
  let voucher_rewards := stake_order.voucher_rewards
  let stake_order ← stake_order.request_early_unstake timestamp
    stake_pool.early_unlock_rate stake_pool.early_unlock_duration
  let burned_token_rewards ← chkSub token_rewards stake_order.token_rewards
  let burned_voucher_rewards ← chkSub voucher_rewards stake_order.voucher_rewards
  some (stake_order, burned_token_rewards, burned_voucher_rewards)

/-- Embeds the second half of the `request_early_unstake` instruction handler
(instructions/stake/request_early_unstake.rs lines 163-223): returning the
clawed-back rewards to the pool's burned tallies and bumping the event
nonce.  The voucher/token burn CPIs move the amounts exposed in the result. -/
def request_early_unstake_core (game : Game) (player_data : PlayerData)
    (stake_pool : StakePool) (stake_order : StakeOrder)
    (order_number timestamp voucher_balance : Nat) :
    Option EarlyUnstakeResult := do
  let ord ← request_early_unstake_order player_data stake_pool stake_order
    order_number timestamp voucher_balance
  let gsr ← chkSub game.distributed_stake_rewards ord.2.2
  let game := { game with distributed_stake_rewards := gsr }
  let dv ← chkSub stake_pool.distributed_voucher_rewards ord.2.2
  let tb ← chkSub stake_pool.token_rewards_pool_balance ord.2.1
  let bt ← chkAdd stake_pool.burned_token_rewards ord.2.1
  let bv ← chkAdd stake_pool.burned_voucher_rewards ord.2.2
  let stake_pool := { stake_pool with
    distributed_voucher_rewards := dv
    token_rewards_pool_balance := tb
    burned_token_rewards := bt
    burned_voucher_rewards := bv }
  let game ← game.increment_event_nonce
  some { game := game, stake_pool := stake_pool, stake_order := ord.1,
         burned_token_rewards := ord.2.1, burned_voucher_rewards := ord.2.2 }

/-! Grand prize distribution (instructions/manager/distribute_grand_prizes.rs). -/

/-- Embeds the `distribute_grand_prizes` instruction
(instructions/manager/distribute_grand_prizes.rs lines 74-168) together with
its account constraints: the round must be over, `index` must equal
`round.grand_prize_distribution_index`, the recipient's `player_data` must be
the PDA of `player` (so `player_data.player = player`), distribution must not
be completed, and `last_active_participant_list[index]` must be `player`.
Returns the updated game, round, player data, and the amount paid. -/
def distribute_grand_prizes_ix (game : Game) (round : Round)
    (player_data : PlayerData) (index player : Nat) :
    Option (Game × Round × PlayerData × Nat) := do
  if ¬ round.is_over then none else
  if index ≠ round.grand_prize_distribution_index then none else
  if player_data.player ≠ player then none else
  if round.is_grand_prize_distribution_completed then none else do
  let pk ← round.last_active_participant_list.get? index
  if ¬ (pk = player) then none else do
  let ra ← round.distribute_grand_prizes
  if player_data.player = game.default_player then do
    let game ← game.increment_event_nonce
    some (game, ra.1, player_data, ra.2)
  else do
    let dg ← chkAdd game.distributed_grand_prizes ra.2
    let game := { game with distributed_grand_prizes := dg }
    let player_data ← player_data.collect_grand_prizes ra.2
    let game ← game.increment_event_nonce
    some (game, ra.1, player_data, ra.2)

/-- One honest step of the grand-prize queue: a call presenting the round's
own current index and the participant listed at that index. -/
def honest_grand_prize_call (game : Game) (round : Round)
    (player_data : PlayerData) : Option (Game × Round × PlayerData × Nat) :=
  distribute_grand_prizes_ix game round player_data
    round.grand_prize_distribution_index
    (round.last_active_participant_list.getD round.grand_prize_distribution_index 0)

/-! Period creation and leaderboard reward distribution
(state/period.rs lines 99-154 and
instructions/manager/distribute_leaderboard_rewards.rs). -/

/-- Embeds `Period::initialize` (state/period.rs lines 99-154), here named
`Period.init` : the reward split for the top three teams is computed as
`team_first = team_rewards / 2`, `team_second = team_first / 5 * 3`,
`team_third = team_rewards - team_first - team_second`, and the top lists are
filled with the default player/team. -/
def Period.init (period_number start_time leaderboard_duration team_rewards
    individual_rewards default_player default_team : Nat) : Option Period := do
  let end_time ← chkAdd start_time leaderboard_duration
  let team_first_place_rewards ← chkDiv team_rewards 2
  let q ← chkDiv team_first_place_rewards 5
  let team_second_place_rewards ← chkMul q 3
  let s ← chkSub team_rewards team_first_place_rewards
  let team_third_place_rewards ← chkSub s team_second_place_rewards
  some { period_number := period_number
         start_time := start_time
         end_time := end_time
         team_reward_pool_balance := team_rewards
         individual_reward_pool_balance := individual_rewards
         team_rewards := team_rewards
         team_first_place_rewards := team_first_place_rewards
         team_second_place_rewards := team_second_place_rewards
         team_third_place_rewards := team_third_place_rewards
         individual_rewards := individual_rewards
         top_player_list :=
           List.replicate PLAYER_WINNERS_COUNT { player := default_player }
         top_team_list :=
           List.replicate TEAM_WINNERS_COUNT { team := default_team } }

/-- Result of a successful leaderboard reward distribution. -/
structure LeaderboardDistribution where
  game : Game
  period : Period
  team_first : Team
  team_second : Team
  team_third : Team
  winner_data : PlayerData
  individual_paid : Nat := 0
deriving DecidableEq, Repr, Inhabited

/-- Embeds the individual-winner branch of `distribute_leaderboard_rewards`
(instructions/manager/distribute_leaderboard_rewards.rs lines 141-179): when
the winner is the default player, the reward is burned; otherwise it is
credited in full to the winner and transferred from the period vault. -/
def distribute_individual_rewards (game : Game) (period : Period)
    (winner_data : PlayerData) (player_leaderboard_winner : Nat) :
    Option (Game × PlayerData × Nat) := do
  if player_leaderboard_winner = game.default_player then
    some (game, winner_data, 0)
  else do
    let d ← chkAdd game.distributed_individual_rewards period.individual_rewards
    let w ← winner_data.collect_individual_rewards period.individual_rewards
    some ({ game with distributed_individual_rewards := d }, w,
      period.individual_rewards)

/-- Embeds one placed-team branch of `distribute_leaderboard_rewards`
(instructions/manager/distribute_leaderboard_rewards.rs lines 181-305): the
default team's share is burned; otherwise it is credited to the team's
distributable rewards and transferred from the period vault. -/
def distribute_one_team_rewards (game : Game) (team : Team)
    (team_key amount : Nat) : Option (Game × Team) := do
  if team_key = game.default_team then
    some (game, team)
  else do
    let d ← chkAdd game.distributed_team_rewards amount
    let t ← chkAdd team.distributable_team_rewards amount
    some ({ game with distributed_team_rewards := d },
      { team with distributable_team_rewards := t })

/-- Embeds the `distribute_leaderboard_rewards` instruction handler
(instructions/manager/distribute_leaderboard_rewards.rs lines 112-330)
together with its account constraints: the three team accounts must be the
top three of `top_team_list` and the winner must be `top_player_list[0]`.
One-shot, guarded by `mark_distribution_completed`. -/
def distribute_leaderboard_rewards_core (game : Game) (period : Period)
    (team_first team_second team_third : Team) (winner_data : PlayerData)
    (player_leaderboard_winner team_first_key team_second_key team_third_key : Nat) :
    Option LeaderboardDistribution := do
  let t0 ← period.top_team_list.get? 0
  let t1 ← period.top_team_list.get? 1
  let t2 ← period.top_team_list.get? 2
  let p0 ← period.top_player_list.get? 0
  if team_first_key ≠ t0.team then none else
  if team_second_key ≠ t1.team then none else
  if team_third_key ≠ t2.team then none else
  if player_leaderboard_winner ≠ p0.player then none else do
  let period ← period.mark_distribution_completed
  let ind ← distribute_individual_rewards game period winner_data
    player_leaderboard_winner
  let d1 ← distribute_one_team_rewards ind.1 team_first team_first_key
    period.team_first_place_rewards
  let d2 ← distribute_one_team_rewards d1.1 team_second team_second_key
    period.team_second_place_rewards
  let d3 ← distribute_one_team_rewards d2.1 team_third team_third_key
    period.team_third_place_rewards
  let game ← d3.1.increment_event_nonce
  some { game := game, period := period, team_first := d1.2, team_second := d2.2,
         team_third := d3.2, winner_data := ind.2.1, individual_paid := ind.2.2 }

/-! The lottery reveal (instructions/player/reveal_draw_lottery_result.rs). -/

/-- Result of a successful lottery reveal. -/
structure RevealResult where
  game : Game
  player_data : PlayerData
  lottery_rewards : Nat := 0
  multiplier : Nat := 0
deriving DecidableEq, Repr, Inhabited

/-- Embeds the `reveal_draw_lottery_result` instruction handler
(instructions/player/reveal_draw_lottery_result.rs lines 63-171).
`seed_slot` is the randomness account's seed slot and `b0 b1 b2` are the
first three revealed random bytes; the winning transfer amount is exposed in
the result. -/
def reveal_draw_lottery_result_core (game : Game) (player_data : PlayerData)
    (seed_slot b0 b1 b2 : Nat) : Option RevealResult := do
  if ¬ (seed_slot ≠ 0 ∧ player_data.result_revealed = false) then none else
  if seed_slot ≠ player_data.commit_slot then none else do
  let symbol1_id := get_symbol_id b0
  let symbol2_id := get_symbol_id b1
  let symbol3_id := get_symbol_id b2
  let multiplier := calculate_multiplier symbol1_id symbol2_id symbol3_id
  let player_data := { player_data with
    spin_symbols := [symbol1_id, symbol2_id, symbol3_id]
    result_multiplier := multiplier
    result_revealed := true
    commit_slot := 0 }
  let lottery_rewards ← chkMul ONCE_DRAW_LOTTERY_VOUCHER_COST multiplier
  if multiplier > 0 then do
    let a ← chkSub game.lottery_rewards_pool_balance lottery_rewards
    let b ← chkAdd game.distributed_lottery_rewards lottery_rewards
    let c ← chkAdd player_data.collected_lottery_rewards lottery_rewards
    let game := { game with
      lottery_rewards_pool_balance := a
      distributed_lottery_rewards := b }
    let player_data := { player_data with collected_lottery_rewards := c }
    let game ← game.increment_event_nonce
    some { game := game, player_data := player_data,
           lottery_rewards := lottery_rewards, multiplier := multiplier }
  else do
    let game ← game.increment_event_nonce
    some { game := game, player_data := player_data,
           lottery_rewards := lottery_rewards, multiplier := multiplier }

/-- Multiplier paytable exactly as the specification words it: three of a
kind pays by tier (jackpot symbol 0 pays 1000, a cherry symbol 1-2 pays 100,
a bell symbol 3-5 pays 50, a lemon symbol 6-9 pays 20, other triples 0);
otherwise one or two cherries pay 3 per cherry, exactly two bells pay 6,
exactly two lemons pay 3, and everything else pays 0. -/
def spec_multiplier (s1 s2 s3 : Nat) : Nat :=
  let cherry_count := [s1, s2, s3].countP (fun x => x ∈ ([1, 2] : List Nat))
  let bell_count := [s1, s2, s3].countP (fun x => x ∈ ([3, 4, 5] : List Nat))
  let lemon_count := [s1, s2, s3].countP (fun x => x ∈ ([6, 7, 8, 9] : List Nat))
  if s1 = s2 ∧ s2 = s3 then
    if s1 = 0 then 1000
    else if s1 ∈ ([1, 2] : List Nat) then 100
    else if s1 ∈ ([3, 4, 5] : List Nat) then 50
    else if s1 ∈ ([6, 7, 8, 9] : List Nat) then 20
    else 0
  else if cherry_count = 1 ∨ cherry_count = 2 then 3 * cherry_count
  else if bell_count = 2 then 6
  else if lemon_count = 2 then 3
  else 0

/-! Leaderboard update sequences for the top-K claim. -/

/-- Applies a sequence of (key, metric) top-player updates to a period. -/
def fold_top_player_updates (p : Period) (us : List (Nat × Nat)) : Period :=
  us.foldl (fun p u => p.update_top_player u.1 u.2) p

/-- Applies a sequence of (key, metric) top-team updates to a period. -/
def fold_top_team_updates (p : Period) (us : List (Nat × Nat)) : Period :=
  us.foldl (fun p u => p.update_top_team_list u.1 u.2) p

/-- Latest metric an update sequence assigns to a key. -/
def last_metric (us : List (Nat × Nat)) (k : Nat) : Option Nat :=
  ((us.filter (fun u => u.1 = k)).getLast?).map (fun u => u.2)

/-- Decidable consequence of top-K containment: every key seen, at its latest
metric, is either present in the list with that metric or dominated by every
list entry.  A list containing the 10 highest-metric entries seen so far
(under any tie-breaking) satisfies this check. -/
def top_player_list_covers (us : List (Nat × Nat)) (l : List TopPlayerAccount) :
    Bool :=
  us.all fun u =>
    match last_metric us u.1 with
    | none => true
    | some m =>
        l.any (fun e => e.player = u.1 && e.purchased_ores = m)
          || l.all (fun e => m ≤ e.purchased_ores)

/-- Update sequence for the C9 counterexample: ten keys reach metric 10, key
11 arrives with metric 5 and is evicted, then key 1 is updated downward to
metric 1. -/
def c9ExampleUpdates : List (Nat × Nat) :=
  [(1, 10), (2, 10), (3, 10), (4, 10), (5, 10), (6, 10), (7, 10), (8, 10),
   (9, 10), (10, 10), (11, 5), (1, 1)]

/-- A period whose leaderboards start empty. -/
def c9EmptyPeriod : Period := {}

/-- Distinct-key update sequence used by the C9 witness. -/
def c9WitnessUpdates : List (Nat × Nat) := [(1, 5), (2, 9), (3, 9)]

/-- Iterates `honest_grand_prize_call` n times, collecting the paid amounts;
each call presents a recipient account whose `player` field matches the
listed participant. -/
def run_honest_grand_prize_calls (game : Game) (round : Round) :
    Nat → Option (Game × Round × List Nat)
  | 0 => some (game, round, [])
  | n + 1 => do
      let acc ← run_honest_grand_prize_calls game round n
      let r ← honest_grand_prize_call acc.1 acc.2.1
        { player := acc.2.1.last_active_participant_list.getD
            acc.2.1.grand_prize_distribution_index 0 }
      some (r.1, r.2.1, acc.2.2 ++ [r.2.2.2])

/-- Game used by the C1 and C10 witnesses. -/
def c1Game : Game := { current_round := 1, current_period := 2 }

/-- Fresh round with no outstanding ore, used by the C1 and C10 witnesses. -/
def c1Round : Round := { end_time := 1000000 }

/-- First buyer for the C1 and C10 witnesses. -/
def c1Buyer : PlayerData := { player := 100, current_round := 1 }

/-- Second buyer for the C1 witness. -/
def c1Buyer2 : PlayerData := { player := 200, current_round := 1 }

/-- Result of the first witness purchase: 10 ores at unit price 100 into an
empty round. -/
def c1Out : PurchaseResult :=
  (purchase_core 100 c1Game c1Round {} {} c1Buyer {} 100 7 10 5 900
    0 1000000).getD default

/-- Result of the second witness purchase: 20 ores by another player while 10
ores are outstanding. -/
def c1Out2 : PurchaseResult :=
  (purchase_core 100 c1Out.game c1Out.round c1Out.period c1Out.team c1Buyer2 {}
    200 7 20 6 901 0 1000000).getD default

/-- Result of the C10 witness purchase: 4 ores at unit price 100 into an
empty round, paid partly with vouchers. -/
def c10Out : PurchaseResult :=
  (purchase_core 100 c1Game c1Round {} {} c1Buyer {} 100 7 4 5 900 50
    1000000).getD default

/-- Ended round with a 1000-unit grand prize pool and ten distinct listed
participants, used by the C5 witness. -/
def c5Round : Round :=
  { is_over := true
    grand_prize_pool_balance := 1000
    last_active_participant_list := [11, 12, 13, 14, 15, 16, 17, 18, 19, 20] }

/-- Game used by the C5 witness. -/
def c5Game : Game := {}

/-- Result of the first honest grand-prize call on `c5Round`. -/
def c5First : Game × Round × PlayerData × Nat :=
  (distribute_grand_prizes_ix c5Game c5Round { player := 11 } 0 11).getD default

/-- Stake order of the C7 scenario: 1,000,000 units at 100 percent APR for
one year, with 1,000,000 reward units reserved. -/
def c7Order : StakeOrder :=
  { stake_number := 1
    stake_amount := 1000000
    token_rewards := 1000000
    voucher_rewards := 1000000
    created_timestamp := 0
    unstaked_timestamp := 31536000
    annual_rate := 100
    lock_duration := 31536000 }

/-- Stake pool of the C7 scenario, at the deployed 20 percent early-unlock
rate and one-day early unlock duration. -/
def c7Pool : StakePool :=
  { distributed_voucher_rewards := 1000000
    token_rewards_pool_balance := 2000000
    early_unlock_rate := EARLY_UNLOCK_APR
    early_unlock_duration := EARLY_UNLOCK_DURATION }

/-- Game used by the C7 witness. -/
def c7Game : Game := { distributed_stake_rewards := 1000000 }

/-- Player record owning the C7 stake order. -/
def c7Player : PlayerData := { nonce := 5 }

/-- Result of requesting early unlock on `c7Order` after 30 days. -/
def c7Result : EarlyUnstakeResult :=
  (request_early_unstake_core c7Game c7Player c7Pool c7Order 1 2592000
    1000000).getD default

/-- Round used by the C3 counterexample: 4000 seconds remain on the clock. -/
def c3Round : Round := { end_time := 4000 }

/-- Result of extending `c3Round` at time 0. -/
def c3Extended : Round := (c3Round.update_end_time 0).getD default

/-- Round used by the C3 witness: the round ended at time 100. -/
def c3WitRound : Round := { end_time := 100 }

/-- Result of extending `c3WitRound` at time 200. -/
def c3WitExtended : Round := (c3WitRound.update_end_time 200).getD default

/-- Round used by the C4 witness: already past its end time, with a recorded
last call slot and three confirmations. -/
def c4Round : Round := { end_time := 50, last_call_slot := 1000, call_count := 3 }

/-- Result of a spaced confirmation call on `c4Round`. -/
def c4Spaced : Round × Period := (handle_round_end c4Round {} 1200 60).getD default

/-- Ten calls spaced 200 slots apart against a fresh expired round. -/
def c4Calls : List (Nat × Nat) :=
  [(200, 60), (400, 60), (600, 60), (800, 60), (1000, 60), (1200, 60), (1400, 60),
   (1600, 60), (1800, 60), (2000, 60)]

/-- State after the ten spaced calls of `c4Calls`. -/
def c4RunResult : Round × Period :=
  (run_round_end_calls { end_time := 50 } {} c4Calls).getD default

/-- Result of a zero-purchase call on an expired round. -/
def c4PurchaseOut : PurchaseResult :=
  (purchase_core 100 c1Game { end_time := 50 } {} {} c1Buyer {} 100 7 0 60 200
    0 0).getD default

/-- Period produced by `Period.init` with team rewards 4, exhibiting the C6
split discrepancy. -/
def c6BadPeriod : Period := (Period.init 1 0 100 4 10 0 0).getD default

/-- Period produced by `Period.init` with team rewards 100, used by the C6
witness. -/
def c6Period : Period := (Period.init 1 0 100 100 10 0 0).getD default

/-- Closed period with a listed winner and three listed teams, used by the
C6 witness distribution. -/
def c6DistPeriod : Period :=
  { top_player_list := [{ player := 5, purchased_ores := 9 }]
    top_team_list := [{ team := 1 }, { team := 2 }, { team := 3 }]
    individual_rewards := 10
    team_first_place_rewards := 6
    team_second_place_rewards := 3
    team_third_place_rewards := 1 }

/-- Result of distributing the leaderboard rewards of `c6DistPeriod`. -/
def c6Dist : LeaderboardDistribution :=
  (distribute_leaderboard_rewards_core {} c6DistPeriod {} {} {} {} 5 1 2 3).getD
    default

/-- Game used by the C8 witness, with a funded lottery pool. -/
def c8Game : Game := { lottery_rewards_pool_balance := 10000000000000 }

/-- Player with a committed lottery draw, used by the C8 witness. -/
def c8Player : PlayerData := { commit_slot := 5 }

/-- Result of revealing the C8 witness draw with random bytes 33, 2, 7. -/
def c8Out : RevealResult :=
  (reveal_draw_lottery_result_core c8Game c8Player 5 33 2 7).getD default

/-! Theorems.  Helper lemmas come first, then one theorem per claim
(with its witness or counterexample). -/

/-- Success characterization of `chkAdd`. -/
theorem chkAdd_eq_some {a b c : Nat} :
    chkAdd a b = some c ↔ a + b < U64_MOD ∧ c = a + b := by
  unfold chkAdd; split <;> simp_all [eq_comm]

/-- Success characterization of `chkSub`. -/
theorem chkSub_eq_some {a b c : Nat} :
    chkSub a b = some c ↔ b ≤ a ∧ c = a - b := by
  unfold chkSub; split <;> simp_all [eq_comm]

/-- Success characterization of `chkMul`. -/
theorem chkMul_eq_some {a b c : Nat} :
    chkMul a b = some c ↔ a * b < U64_MOD ∧ c = a * b := by
  unfold chkMul; split <;> simp_all [eq_comm]

/-- Success characterization of `chkDiv`. -/
theorem chkDiv_eq_some {a b c : Nat} :
    chkDiv a b = some c ↔ b ≠ 0 ∧ c = a / b := by
  unfold chkDiv; split <;> simp_all [eq_comm]

/-- Success characterization of `chkAdd32`. -/
theorem chkAdd32_eq_some {a b c : Nat} :
    chkAdd32 a b = some c ↔ a + b < U32_MOD ∧ c = a + b := by
  unfold chkAdd32; split <;> simp_all [eq_comm]

/-- Success characterization of `chkAdd16`. -/
theorem chkAdd16_eq_some {a b c : Nat} :
    chkAdd16 a b = some c ↔ a + b < U16_MOD ∧ c = a + b := by
  unfold chkAdd16; split <;> simp_all [eq_comm]

/-- Success characterization of `chkAdd8`. -/
theorem chkAdd8_eq_some {a b c : Nat} :
    chkAdd8 a b = some c ↔ a + b < U8_MOD ∧ c = a + b := by
  unfold chkAdd8; split <;> simp_all [eq_comm]

/-- C2: for every player and round accumulator value, a successful settle adds
(round.earnings_per_unit - player.earnings_per_unit) * player.available_units
to the collectable construction rewards and snapshots the player at the
round's accumulator; it fails whenever the player's snapshot exceeds the
round's accumulator; and a second settle against the same accumulator value
returns the same state (idempotence). -/
theorem c2_settle_spec (p : PlayerData) (e : Nat) :
    (∀ p', p.settle_collectable_construction_rewards e = some p' →
      p'.collectable_construction_rewards
          = p.collectable_construction_rewards + (e - p.earnings_per_ore) * p.available_ores
        ∧ p'.earnings_per_ore = e
        ∧ p'.available_ores = p.available_ores
        ∧ p'.settle_collectable_construction_rewards e = some p')
    ∧ (e < p.earnings_per_ore → p.settle_collectable_construction_rewards e = none) := by
  constructor
  · intro p' h
    simp only [PlayerData.settle_collectable_construction_rewards, Option.bind_eq_bind,
      Option.bind_eq_some, chkSub_eq_some, chkMul_eq_some, chkAdd_eq_some] at h
    obtain ⟨d, ⟨hle, hd⟩, f, ⟨hfb, hf⟩, c, ⟨hcb, hc⟩, hp'⟩ := h
    subst hd hf hc
    obtain rfl := Option.some.inj hp'
    refine ⟨rfl, rfl, rfl, ?_⟩
    simp only [U64_MOD] at hfb hcb
    simp [PlayerData.settle_collectable_construction_rewards, chkSub, chkMul, chkAdd,
      U64_MOD, hfb, hcb]
  · intro hlt
    simp only [PlayerData.settle_collectable_construction_rewards, Option.bind_eq_bind,
      chkSub]
    simp [Nat.not_le.mpr hlt]

/-- Witness for C2: settling `c2Player` against accumulator 10 credits
7 + (10 - 2) * 5 = 47 and is idempotent. -/
theorem c2_settle_spec_witness :
    c2Settled.collectable_construction_rewards = 47
      ∧ c2Settled.earnings_per_ore = 10
      ∧ c2Settled.settle_collectable_construction_rewards 10 = some c2Settled := by
  have h := (c2_settle_spec c2Player 10).1 c2Settled (by decide)
  exact ⟨h.1.trans (by decide), h.2.1, h.2.2.2⟩

/-- C3 counterexample: for a round with 4000 seconds remaining at time 0,
the extension routine leaves `end_time` unchanged at 4000, so immediately
after the call `end_time - current_time` exceeds `MAX_COUNTDOWN` and the end
time was not extended by 60 seconds either, contradicting the claim. -/
theorem c3_counterexample :
    c3Round.update_end_time 0 = some c3Extended
      ∧ c3Extended.end_time = 4000
      ∧ ¬ (c3Extended.end_time - 0 ≤ MAX_COUNTDOWN_SECONDS)
      ∧ c3Extended.end_time ≠ c3Round.end_time + ACTION_TIME_EXTENSION := by
  refine ⟨by decide, by decide, by decide, by decide⟩

/-- C3 amended: whenever at most `MAX_COUNTDOWN` (3600 s) remains before the
call, the extension routine re-establishes `end_time - current_time ≤
MAX_COUNTDOWN`; when `current_time > end_time` the new end time is
`current_time + 60`; otherwise the end time is extended by 60 seconds capped
at `current_time + 3600`.  When more than `MAX_COUNTDOWN` remains, the call
leaves `end_time` unchanged (this is the case the original claim misses). -/
theorem c3_update_end_time_amended (r : Round) (current_time : Nat) (r' : Round)
    (h : r.update_end_time current_time = some r') :
    (r.end_time ≤ current_time + MAX_COUNTDOWN_SECONDS →
        r'.end_time - current_time ≤ MAX_COUNTDOWN_SECONDS
        ∧ (r.end_time < current_time → r'.end_time = current_time + ACTION_TIME_EXTENSION)
        ∧ (current_time ≤ r.end_time →
            r'.end_time = min (r.end_time + ACTION_TIME_EXTENSION)
              (current_time + MAX_COUNTDOWN_SECONDS)))
    ∧ (current_time + MAX_COUNTDOWN_SECONDS < r.end_time → r'.end_time = r.end_time) := by
  simp only [Round.update_end_time] at h
  split at h
  case isTrue hgt =>
    simp only [Option.bind_eq_bind, Option.bind_eq_some, chkAdd_eq_some] at h
    obtain ⟨e, ⟨heb, he⟩, hr'⟩ := h
    obtain rfl := Option.some.inj hr'
    subst he
    refine ⟨fun hle => ⟨?_, fun _ => rfl, fun hc => absurd hc (by omega)⟩,
      fun hbig => absurd hbig (by omega)⟩
    show current_time + ACTION_TIME_EXTENSION - current_time ≤ MAX_COUNTDOWN_SECONDS
    simp only [ACTION_TIME_EXTENSION, MAX_COUNTDOWN_SECONDS]
    omega
  case isFalse hngt =>
    simp only [Option.bind_eq_bind, Option.bind_eq_some, chkSub_eq_some] at h
    obtain ⟨rem, ⟨hremle, hrem⟩, h⟩ := h
    split at h
    case isTrue hbig =>
      obtain rfl := Option.some.inj h
      subst hrem
      exact ⟨fun hle => absurd hle (by omega), fun _ => rfl⟩
    case isFalse hsmall =>
      simp only [Option.bind_eq_some, chkAdd_eq_some] at h
      obtain ⟨ext, ⟨hextb, hext⟩, me, ⟨hmeb, hme⟩, hr'⟩ := h
      obtain rfl := Option.some.inj hr'
      subst hext hme hrem
      have hmax : max r.end_time current_time = r.end_time := Nat.max_eq_left (by omega)
      refine ⟨fun hle => ⟨?_, fun hc => absurd hc (by omega), fun _ => ?_⟩,
        fun hbig => absurd hbig (by omega)⟩
      · show min (max r.end_time current_time + ACTION_TIME_EXTENSION)
            (current_time + MAX_COUNTDOWN_SECONDS) - current_time ≤ MAX_COUNTDOWN_SECONDS
        omega
      · show min (max r.end_time current_time + ACTION_TIME_EXTENSION)
            (current_time + MAX_COUNTDOWN_SECONDS)
          = min (r.end_time + ACTION_TIME_EXTENSION) (current_time + MAX_COUNTDOWN_SECONDS)
        rw [hmax]

/-- Witness for the amended C3: a round that ended at time 100, extended at
time 200, gets the new end time 260 = 200 + 60, within the countdown bound. -/
theorem c3_update_end_time_amended_witness :
    c3WitExtended.end_time = 260
      ∧ c3WitExtended.end_time - 200 ≤ MAX_COUNTDOWN_SECONDS := by
  have h := c3_update_end_time_amended c3WitRound 200 c3WitExtended (by decide)
  have h1 := h.1 (by decide)
  exact ⟨(h1.2.1 (by decide)).trans (by decide), h1.1⟩

/-- Helper: a successful `handle_round_end` call splits into the silent no-op
case and the spaced-confirmation case. -/
theorem handle_round_end_cases (r : Round) (per : Period) (slot t : Nat)
    (rp : Round × Period) (h : handle_round_end r per slot t = some rp) :
    r.last_call_slot + 150 < U64_MOD
    ∧ ((slot < r.last_call_slot + 150 ∧ rp = (r, per))
       ∨ (r.last_call_slot + 150 ≤ slot
          ∧ rp.1.call_count = r.call_count + 1
          ∧ rp.1.last_call_slot = slot
          ∧ rp.1.is_over = (r.is_over || decide (10 ≤ r.call_count + 1))
          ∧ rp.1.end_time = r.end_time
          ∧ rp.1.earnings_per_ore = r.earnings_per_ore
          ∧ rp.1.available_ores = r.available_ores)) := by
  simp only [handle_round_end, Option.bind_eq_bind, Option.bind_eq_some,
    chkAdd_eq_some] at h
  obtain ⟨th, ⟨hthb, hth⟩, h⟩ := h
  subst hth
  refine ⟨hthb, ?_⟩
  split at h
  case isTrue hlt =>
    left
    exact ⟨hlt, (Option.some.inj h).symm⟩
  case isFalse hge =>
    right
    refine ⟨by omega, ?_⟩
    split at h
    case isTrue h10 =>
      obtain rfl := (Option.some.inj h)
      refine ⟨rfl, rfl, ?_, rfl, rfl, rfl⟩
      have hd : decide (10 ≤ r.call_count + 1) = true := decide_eq_true (by omega)
      rw [hd, Bool.or_true]
    case isFalse h10 =>
      obtain rfl := (Option.some.inj h)
      refine ⟨rfl, rfl, ?_, rfl, rfl, rfl⟩
      have hd : decide (10 ≤ r.call_count + 1) = false := decide_eq_false (by omega)
      rw [hd, Bool.or_false]

/-- Helper: the confirmation-count invariant of `run_round_end_calls`. -/
theorem run_round_end_calls_invariant (calls : List (Nat × Nat)) :
    ∀ (r : Round) (per : Period) (r' : Round) (per' : Period),
      run_round_end_calls r per calls = some (r', per') →
      r.is_over = decide (10 ≤ r.call_count) →
      r'.call_count
          = r.call_count + count_spaced_calls r.last_call_slot (calls.map Prod.fst)
        ∧ r'.is_over = decide (10 ≤ r'.call_count) := by
  induction calls with
  | nil =>
      intro r per r' per' h hinv
      simp only [run_round_end_calls] at h
      obtain ⟨rfl, rfl⟩ := Prod.mk.inj (Option.some.inj h)
      simpa [count_spaced_calls] using hinv
  | cons c rest ih =>
      intro r per r' per' h hinv
      simp only [run_round_end_calls, Option.bind_eq_bind, Option.bind_eq_some] at h
      obtain ⟨⟨r1, p1⟩, h1, h2⟩ := h
      simp only [handle_round_end, Option.bind_eq_bind, Option.bind_eq_some,
        chkAdd_eq_some] at h1
      obtain ⟨th, ⟨hthb, hth⟩, h1⟩ := h1
      subst hth
      split at h1
      case isTrue hlt =>
        obtain ⟨rfl, rfl⟩ := Prod.mk.inj (Option.some.inj h1)
        have := ih r per r' per' h2 hinv
        simpa [count_spaced_calls, hlt] using this
      case isFalse hge =>
        split at h1
        case isTrue h10 =>
          obtain ⟨rfl, rfl⟩ := Prod.mk.inj (Option.some.inj h1)
          have hinv1 : (true : Bool) = decide (10 ≤ r.call_count + 1) :=
            (decide_eq_true (by omega)).symm
          have hstep := ih _ _ r' per' h2 hinv1
          simp only at hstep
          simp only [count_spaced_calls,
            if_neg (by omega : ¬ c.1 < r.last_call_slot + 150)]
          exact ⟨by rw [hstep.1]; omega, hstep.2⟩
        case isFalse h10 =>
          obtain ⟨rfl, rfl⟩ := Prod.mk.inj (Option.some.inj h1)
          have hinv1 : r.is_over = decide (10 ≤ r.call_count + 1) := by
            rw [hinv]
            exact decide_eq_decide.mpr (by omega)
          have hstep := ih _ _ r' per' h2 hinv1
          simp only at hstep
          simp only [count_spaced_calls,
            if_neg (by omega : ¬ c.1 < r.last_call_slot + 150)]
          exact ⟨by rw [hstep.1]; omega, hstep.2⟩

/-- C4: once the current time has passed the round's end time, a
purchase-class call with zero purchased units routes into the round-end
confirmation handler; that handler increments `call_count` only when at
least 150 slots have elapsed since `last_call_slot` and otherwise leaves the
round unchanged (a silent no-op); and starting from `call_count = 0` the
round's `is_over` flag is true exactly when at least 10 such spaced
confirmations have been processed — the 10th sets it, never earlier. -/
theorem c4_round_end_confirmation_spec :
    (∀ (lam : Nat) (g : Game) (r : Round) (per : Period) (team : Team)
       (pd rd : PlayerData) (player team_key timestamp slot vb tb : Nat)
       (out : PurchaseResult),
       r.end_time < timestamp →
       purchase_core lam g r per team pd rd player team_key 0 timestamp slot vb tb
         = some out →
       out.round_end_call = true
       ∧ some (out.round, out.period) = handle_round_end r per slot timestamp)
    ∧ (∀ (r : Round) (per : Period) (slot t : Nat),
        r.last_call_slot + 150 < U64_MOD →
        slot < r.last_call_slot + 150 →
        handle_round_end r per slot t = some (r, per))
    ∧ (∀ (r : Round) (per : Period) (slot t : Nat) (rp : Round × Period),
        handle_round_end r per slot t = some rp →
        r.last_call_slot + 150 ≤ slot →
        rp.1.call_count = r.call_count + 1
        ∧ rp.1.last_call_slot = slot
        ∧ rp.1.is_over = (r.is_over || decide (10 ≤ r.call_count + 1)))
    ∧ (∀ (r : Round) (per : Period) (calls : List (Nat × Nat)) (r' : Round)
        (per' : Period),
        run_round_end_calls r per calls = some (r', per') →
        r.call_count = 0 → r.is_over = false →
        (r'.is_over = true
          ↔ 10 ≤ count_spaced_calls r.last_call_slot (calls.map Prod.fst))) := by
  refine ⟨?_, ?_, ?_, ?_⟩
  · intro lam g r per team pd rd player team_key timestamp slot vb tb out hend h
    rw [purchase_core] at h
    by_cases hov : r.is_over = true
    · rw [if_pos hov] at h
      exact absurd h (by simp)
    rw [if_neg hov] at h
    by_cases hst : r.start_time ≤ timestamp
    · rw [if_neg (by simpa using hst)] at h
      rcases hgn : g.increment_event_nonce with _ | g1 <;> rw [hgn] at h
      · exact absurd h (by simp)
      simp only [Option.bind_eq_bind, Option.bind_eq_some] at h
      obtain ⟨g2, hg2, h⟩ := h
      obtain rfl := Option.some.inj hg2
      rw [if_pos ⟨by omega, by trivial⟩] at h
      simp only [Option.bind_eq_some] at h
      obtain ⟨rp, hrp, hout⟩ := h
      obtain rfl := Option.some.inj hout
      exact ⟨rfl, by rw [hrp]⟩
    · rw [if_pos (by simpa using hst)] at h
      exact absurd h (by simp)
  · intro r per slot t hb hlt
    simp only [handle_round_end, chkAdd, if_pos hb, Option.bind_eq_bind,
      Option.some_bind]
    rw [if_pos hlt]
  · intro r per slot t rp h hsp
    obtain ⟨hb, hcase⟩ := handle_round_end_cases r per slot t rp h
    rcases hcase with ⟨hlt, _⟩ | ⟨_, hc⟩
    · omega
    · exact ⟨hc.1, hc.2.1, hc.2.2.1⟩
  · intro r per calls r' per' h hc0 hov
    have hinv : r.is_over = decide (10 ≤ r.call_count) := by
      rw [hov, hc0]
      exact (decide_eq_false (by omega)).symm
    have hrun := run_round_end_calls_invariant calls r per r' per' h hinv
    rw [hrun.2, hrun.1, hc0]
    simp

/-- Witness for C4: a zero-purchase call on an expired round routes into the
confirmation handler; a call 100 slots after the last one is a silent no-op;
a call 200 slots after increments the count from 3 to 4 without ending the
round; and ten spaced calls on a fresh expired round set `is_over`. -/
theorem c4_round_end_confirmation_spec_witness :
    c4PurchaseOut.round_end_call = true
    ∧ handle_round_end c4Round {} 1100 60 = some (c4Round, {})
    ∧ c4Spaced.1.call_count = 4
    ∧ c4Spaced.1.is_over = false
    ∧ c4RunResult.1.is_over = true := by
  obtain ⟨h1, h2, h3, h4⟩ := c4_round_end_confirmation_spec
  refine ⟨?_, h2 c4Round {} 1100 60 (by decide) (by decide), ?_, ?_, ?_⟩
  · exact (h1 100 c1Game { end_time := 50 } {} {} c1Buyer {} 100 7 60 200 0 0
      c4PurchaseOut (by decide) (by decide)).1
  · exact (h3 c4Round {} 1200 60 c4Spaced (by decide) (by decide)).1.trans
      (by decide)
  · have hs := h3 c4Round {} 1200 60 c4Spaced (by decide) (by decide)
    rw [hs.2.2]
    decide
  · exact (h4 { end_time := 50 } {} c4Calls c4RunResult.1 c4RunResult.2
      (by decide) (by decide) (by decide)).mpr (by decide)

/-- Helper: a successful `Round::distribute_grand_prizes` pays the half pool
plus a tenth of the half on the first call, pays the stored per-winner share
afterwards, advances the queue index, and completes exactly at index 10. -/
theorem distribute_grand_prizes_method_spec (r : Round) (ra : Round × Nat)
    (h : r.distribute_grand_prizes = some ra) :
    (r.grand_prize_distribution_index = 0 →
        ra.2 = r.grand_prize_pool_balance / 2 + r.grand_prize_pool_balance / 2 / 10
        ∧ ra.1.second_grand_prizes = r.grand_prize_pool_balance / 2 / 10)
    ∧ (r.grand_prize_distribution_index ≠ 0 →
        ra.2 = r.second_grand_prizes
        ∧ ra.1.second_grand_prizes = r.second_grand_prizes)
    ∧ ra.1.grand_prize_distribution_index = r.grand_prize_distribution_index + 1
    ∧ (ra.1.is_grand_prize_distribution_completed = true
        ↔ (ra.1.grand_prize_distribution_index = 10
           ∨ r.is_grand_prize_distribution_completed = true)) := by
  rw [Round.distribute_grand_prizes] at h
  by_cases hidx : r.grand_prize_distribution_index = 0
  · rw [if_pos hidx] at h
    simp only [Option.bind_eq_bind, Option.bind_eq_some] at h
    obtain ⟨r1, hr1, h⟩ := h
    simp only [Round.calculate_prize_amounts, Option.bind_eq_bind, Option.bind_eq_some,
      chkDiv_eq_some, chkAdd_eq_some, TOTAL_WINNERS] at hr1
    obtain ⟨half, ⟨-, hhalf⟩, shared, ⟨-, hshared⟩, first, ⟨hfb, hfirst⟩, hr1⟩ := hr1
    obtain rfl := Option.some.inj hr1
    subst hhalf hshared hfirst
    simp only [hidx, if_true] at h
    split at h
    · exact absurd h (by simp)
    simp only [Option.bind_eq_some, chkSub_eq_some, chkAdd_eq_some,
      chkAdd8_eq_some, TOTAL_WINNERS] at h
    obtain ⟨pool, ⟨-, hpool⟩, dist, ⟨-, hdist⟩, idx, ⟨-, hidx1⟩, hra⟩ := h
    subst hpool hdist hidx1
    obtain rfl := Option.some.inj hra
    rw [if_neg (by omega : ¬ (0 : Nat) + 1 = 10)]
    refine ⟨fun _ => ⟨rfl, rfl⟩, fun hne => absurd hidx hne, by simp [hidx], by simp⟩
  · rw [if_neg hidx] at h
    simp only [Option.bind_eq_bind, Option.bind_eq_some] at h
    obtain ⟨r1, hr1, h⟩ := h
    obtain rfl := Option.some.inj hr1
    rw [if_neg hidx] at h
    split at h
    · exact absurd h (by simp)
    simp only [Option.bind_eq_some, chkSub_eq_some, chkAdd_eq_some,
      chkAdd8_eq_some, TOTAL_WINNERS] at h
    obtain ⟨pool, ⟨-, hpool⟩, dist, ⟨-, hdist⟩, idx, ⟨-, hidx1⟩, hra⟩ := h
    subst hpool hdist hidx1
    obtain rfl := Option.some.inj hra
    by_cases h10 : r.grand_prize_distribution_index + 1 = 10
    · rw [if_pos h10]
      exact ⟨fun h0 => absurd h0 hidx, fun _ => ⟨rfl, rfl⟩, rfl, by simp [h10]⟩
    · rw [if_neg h10]
      exact ⟨fun h0 => absurd h0 hidx, fun _ => ⟨rfl, rfl⟩, rfl, by simp [h10]⟩

/-- C5: a successful grand-prize distribution call must present the round's
current queue index and the participant listed at that index on an ended,
uncompleted round; the first successful call pays G/2 + (G/2)/10 of the pool
G and stores (G/2)/10 as the per-winner share, each later successful call
pays the stored (G/2)/10 share; each success advances the index by one and
sets the completion flag exactly at index 10; and once the flag is set every
further distribution call fails. -/
theorem c5_grand_prize_exactly_once_spec :
    (∀ (game : Game) (r : Round) (pd : PlayerData) (index player : Nat)
       (res : Game × Round × PlayerData × Nat),
       distribute_grand_prizes_ix game r pd index player = some res →
       index = r.grand_prize_distribution_index
       ∧ r.last_active_participant_list.get? index = some player
       ∧ r.is_over = true
       ∧ r.is_grand_prize_distribution_completed = false
       ∧ (r.grand_prize_distribution_index = 0 →
           res.2.2.2 = r.grand_prize_pool_balance / 2
               + r.grand_prize_pool_balance / 2 / 10
           ∧ res.2.1.second_grand_prizes = r.grand_prize_pool_balance / 2 / 10)
       ∧ (r.grand_prize_distribution_index ≠ 0 →
           res.2.2.2 = r.second_grand_prizes
           ∧ res.2.1.second_grand_prizes = r.second_grand_prizes)
       ∧ res.2.1.grand_prize_distribution_index = r.grand_prize_distribution_index + 1
       ∧ (res.2.1.is_grand_prize_distribution_completed = true
           ↔ res.2.1.grand_prize_distribution_index = 10))
    ∧ (∀ (game : Game) (r : Round) (pd : PlayerData) (index player : Nat),
        r.is_grand_prize_distribution_completed = true →
        distribute_grand_prizes_ix game r pd index player = none) := by
  constructor
  · intro game r pd index player res h
    rw [distribute_grand_prizes_ix] at h
    by_cases hov : r.is_over = true
    case neg => rw [if_pos hov] at h; exact absurd h (by simp)
    rw [if_neg (not_not_intro hov)] at h
    by_cases hix : index = r.grand_prize_distribution_index
    case neg => rw [if_pos hix] at h; exact absurd h (by simp)
    rw [if_neg (not_not_intro hix)] at h
    by_cases hpp : pd.player = player
    case neg => rw [if_pos hpp] at h; exact absurd h (by simp)
    rw [if_neg (not_not_intro hpp)] at h
    by_cases hcomp : r.is_grand_prize_distribution_completed = true
    case pos => rw [if_pos hcomp] at h; exact absurd h (by simp)
    rw [if_neg hcomp] at h
    have hcf : r.is_grand_prize_distribution_completed = false := by
      simpa using hcomp
    simp only [Option.bind_eq_bind, Option.bind_eq_some] at h
    obtain ⟨pk, hpk, h⟩ := h
    by_cases hpkp : pk = player
    case neg =>
      rw [if_pos hpkp] at h
      exact absurd h (by simp)
    rw [if_neg (not_not_intro hpkp)] at h
    simp only [Option.bind_eq_some] at h
    obtain ⟨ra, hra, h⟩ := h
    have mspec := distribute_grand_prizes_method_spec r ra hra
    have hiff : ra.1.is_grand_prize_distribution_completed = true
        ↔ ra.1.grand_prize_distribution_index = 10 := by
      rw [mspec.2.2.2, hcf]
      simp
    split at h
    · simp only [Game.increment_event_nonce, Option.bind_eq_bind, Option.bind_eq_some,
        chkAdd32_eq_some] at h
      obtain ⟨g2, ⟨-, -⟩, h⟩ := h
      obtain rfl := Option.some.inj h
      exact ⟨hix, hpkp ▸ hpk, hov, hcf, mspec.1, mspec.2.1, mspec.2.2.1, hiff⟩
    · simp only [Game.increment_event_nonce, PlayerData.collect_grand_prizes,
        Option.bind_eq_bind, Option.bind_eq_some, chkAdd_eq_some, chkAdd32_eq_some] at h
      obtain ⟨dg, ⟨-, -⟩, pd2, hpd2, g2, ⟨-, -⟩, h⟩ := h
      obtain rfl := Option.some.inj h
      exact ⟨hix, hpkp ▸ hpk, hov, hcf, mspec.1, mspec.2.1, mspec.2.2.1, hiff⟩
  · intro game r pd index player hc
    simp [distribute_grand_prizes_ix, hc]

/-- Witness for C5: on an ended round with a 1000-unit pool the first honest
call pays 550 = 1000/2 + (1000/2)/10 and advances the index to 1 with the
completion flag still clear, and a completed round rejects any call. -/
theorem c5_grand_prize_exactly_once_spec_witness :
    c5First.2.2.2 = 550
    ∧ c5First.2.1.grand_prize_distribution_index = 1
    ∧ c5First.2.1.is_grand_prize_distribution_completed = false
    ∧ distribute_grand_prizes_ix c5Game
        { c5Round with is_grand_prize_distribution_completed := true }
        { player := 11 } 0 11 = none := by
  obtain ⟨h1, h2⟩ := c5_grand_prize_exactly_once_spec
  have hs := h1 c5Game c5Round { player := 11 } 0 11 c5First (by decide)
  exact ⟨(hs.2.2.2.2.1 (by decide)).1.trans (by decide),
    hs.2.2.2.2.2.2.1.trans (by decide), by decide,
    h2 c5Game { c5Round with is_grand_prize_distribution_completed := true }
      { player := 11 } 0 11 rfl⟩

/-- Helper: `Round::update_end_time` only changes the countdown fields. -/
theorem update_end_time_preserves (r : Round) (t : Nat) (r' : Round)
    (h : r.update_end_time t = some r') :
    r'.earnings_per_ore = r.earnings_per_ore
    ∧ r'.available_ores = r.available_ores
    ∧ r'.grand_prize_pool_balance = r.grand_prize_pool_balance
    ∧ r'.last_active_participant_list = r.last_active_participant_list := by
  rw [Round.update_end_time] at h
  split at h
  · simp only [Option.bind_eq_bind, Option.bind_eq_some, chkAdd_eq_some] at h
    obtain ⟨e, ⟨-, -⟩, h⟩ := h
    obtain rfl := Option.some.inj h
    exact ⟨rfl, rfl, rfl, rfl⟩
  · simp only [Option.bind_eq_bind, Option.bind_eq_some, chkSub_eq_some] at h
    obtain ⟨rem, ⟨-, -⟩, h⟩ := h
    split at h
    · obtain rfl := Option.some.inj h
      exact ⟨rfl, rfl, rfl, rfl⟩
    · simp only [Option.bind_eq_some, chkAdd_eq_some] at h
      obtain ⟨e1, ⟨-, -⟩, e2, ⟨-, -⟩, h⟩ := h
      obtain rfl := Option.some.inj h
      exact ⟨rfl, rfl, rfl, rfl⟩

/-- Helper: the total cost computed by `purchase_costs`. -/
theorem purchase_costs_spec (lam q vb tb : Nat) (c : Nat × Nat × Nat)
    (h : purchase_costs lam q vb tb = some c) : c.1 = lam * q := by
  simp only [purchase_costs, Option.bind_eq_bind, Option.bind_eq_some,
    chkMul_eq_some, chkSub_eq_some, chkAdd_eq_some] at h
  obtain ⟨tc, ⟨-, htc⟩, tk, ⟨-, -⟩, pb, ⟨-, -⟩, h⟩ := h
  split at h
  · exact absurd h (by simp)
  · obtain rfl := Option.some.inj h
    simpa using htc

/-- Helper: success characterization of `calculate_proportion`. -/
theorem calculate_proportion_eq_some {a p v : Nat} :
    calculate_proportion a p = some v ↔ a / 100 * p < U64_MOD ∧ v = a / 100 * p := by
  rw [calculate_proportion]
  rw [show chkDiv a BASIS_POINTS_DENOMINATOR = some (a / 100) from by
    simp [chkDiv, BASIS_POINTS_DENOMINATOR]]
  simp only [Option.bind_eq_bind, Option.some_bind, chkMul_eq_some]

/-- Helper: the pool shares computed by `purchase_shares` follow the
divide-then-multiply percentage formula. -/
theorem purchase_shares_spec (tc tk : Nat) (sh : Nat × Nat × Nat × Nat × Nat × Nat)
    (h : purchase_shares tc tk = some sh) :
    sh.1 = tc / 100 * 25
    ∧ sh.2.1 = tc / 100 * 10
    ∧ sh.2.2.1 = tc / 100 * 10
    ∧ sh.2.2.2.1 = tc / 100 * 30
    ∧ sh.2.2.2.2.1 = tk / 100 * 10
    ∧ sh.2.2.2.2.2 = tk / 100 * 10 := by
  simp only [purchase_shares, Option.bind_eq_bind, Option.bind_eq_some,
    calculate_proportion_eq_some, CONSTRUCTION_POOL_SHARE, LOTTERY_POOL_SHARE,
    REFERRAL_POOL_SHARE, GRAND_PRIZES_POOL_SHARE, CONSUMPTION_POOL_SHARE] at h
  obtain ⟨c1, ⟨-, hc1⟩, l1, ⟨-, hl1⟩, r1, ⟨-, hr1⟩, g1, ⟨-, hg1⟩, k1, ⟨-, hk1⟩,
    d1, ⟨-, hd1⟩, h⟩ := h
  obtain rfl := Option.some.inj h
  subst hc1 hl1 hr1 hg1 hk1 hd1
  exact ⟨rfl, rfl, rfl, rfl, rfl, rfl⟩


/-- Helper: `Game::increment_event_nonce` changes only the nonce. -/
theorem increment_event_nonce_preserves (g g' : Game)
    (h : g.increment_event_nonce = some g') :
    g'.construction_rewards_pool_balance = g.construction_rewards_pool_balance
    ∧ g'.bonus_rewards_pool_balance = g.bonus_rewards_pool_balance
    ∧ g'.default_player = g.default_player
    ∧ g'.default_team = g.default_team
    ∧ g'.current_round = g.current_round
    ∧ g'.current_period = g.current_period := by
  simp only [Game.increment_event_nonce, Option.bind_eq_bind, Option.bind_eq_some,
    chkAdd32_eq_some] at h
  obtain ⟨n, ⟨-, -⟩, h⟩ := h
  obtain rfl := Option.some.inj h
  exact ⟨rfl, rfl, rfl, rfl, rfl, rfl⟩

/-- Helper: with no outstanding ore, the construction and bonus shares go to
the round's grand prize pool and the game pools are untouched. -/
theorem purchase_pool_credit_zero (g : Game) (r : Round) (c b : Nat)
    (out : Game × Round) (h : purchase_pool_credit g r 0 c b = some out) :
    out.1 = g
    ∧ out.2.earnings_per_ore = r.earnings_per_ore
    ∧ out.2.available_ores = r.available_ores
    ∧ out.2.grand_prize_pool_balance = r.grand_prize_pool_balance + c + b := by
  rw [purchase_pool_credit, if_neg (by omega : ¬ (0 : Nat) > 0)] at h
  simp only [Option.bind_eq_bind, Option.bind_eq_some, chkAdd_eq_some] at h
  obtain ⟨g1, ⟨-, hg1⟩, g2, ⟨-, hg2⟩, h⟩ := h
  obtain rfl := Option.some.inj h
  subst hg2 hg1
  exact ⟨rfl, rfl, rfl, rfl⟩

/-- Helper: with outstanding ore, the construction and bonus shares go to
the game pools and the round is untouched. -/
theorem purchase_pool_credit_pos (g : Game) (r : Round) (co c b : Nat)
    (out : Game × Round) (hco : 0 < co)
    (h : purchase_pool_credit g r co c b = some out) :
    out.2 = r
    ∧ out.1.lottery_rewards_pool_balance = g.lottery_rewards_pool_balance
    ∧ out.1.default_player = g.default_player := by
  rw [purchase_pool_credit, if_pos (by omega : co > 0)] at h
  simp only [Option.bind_eq_bind, Option.bind_eq_some, chkAdd_eq_some] at h
  obtain ⟨g1, ⟨-, -⟩, g2, ⟨-, -⟩, h⟩ := h
  obtain rfl := Option.some.inj h
  exact ⟨rfl, rfl, rfl⟩

/-- Helper: the referral credit touches only the referral pool. -/
theorem purchase_referral_credit_preserves (g : Game) (ref rf : Nat) (g' : Game)
    (h : purchase_referral_credit g ref rf = some g') :
    g'.construction_rewards_pool_balance = g.construction_rewards_pool_balance
    ∧ g'.bonus_rewards_pool_balance = g.bonus_rewards_pool_balance
    ∧ g'.lottery_rewards_pool_balance = g.lottery_rewards_pool_balance
    ∧ g'.default_player = g.default_player
    ∧ g'.default_team = g.default_team
    ∧ g'.consumption_rewards_pool_balance = g.consumption_rewards_pool_balance
    ∧ g'.distributable_consumption_rewards = g.distributable_consumption_rewards := by
  rw [purchase_referral_credit] at h
  split at h
  · simp only [Option.bind_eq_bind, Option.bind_eq_some, chkAdd_eq_some] at h
    obtain ⟨rp, ⟨-, -⟩, h⟩ := h
    obtain rfl := Option.some.inj h
    exact ⟨rfl, rfl, rfl, rfl, rfl, rfl, rfl⟩
  · obtain rfl := Option.some.inj h
    exact ⟨rfl, rfl, rfl, rfl, rfl, rfl, rfl⟩

/-- Helper: with no outstanding ore the accumulator accrual is skipped. -/
theorem purchase_accrue_zero (r : Round) (c : Nat) (r' : Round)
    (h : purchase_accrue r 0 c = some r') : r' = r := by
  rw [purchase_accrue, if_neg (by omega : ¬ (0 : Nat) > 0)] at h
  exact (Option.some.inj h).symm

/-- Helper: with outstanding ore the accumulator accrues the construction
share divided by `max(available_ores, 1)`. -/
theorem purchase_accrue_pos (r : Round) (co c : Nat) (r' : Round) (hco : 0 < co)
    (h : purchase_accrue r co c = some r') :
    r'.earnings_per_ore = r.earnings_per_ore + c / max r.available_ores 1
    ∧ r'.available_ores = r.available_ores
    ∧ r'.grand_prize_pool_balance = r.grand_prize_pool_balance := by
  rw [purchase_accrue, if_pos (by omega : co > 0)] at h
  simp only [Option.bind_eq_bind, Option.bind_eq_some, chkDiv_eq_some,
    chkAdd_eq_some] at h
  obtain ⟨inc, ⟨-, hinc⟩, e, ⟨-, he⟩, h⟩ := h
  obtain rfl := Option.some.inj h
  subst hinc he
  exact ⟨rfl, rfl, rfl⟩

/-- Helper: with no outstanding ore, `purchase_pool_update` leaves the game's
construction and bonus pools and the round's accumulator untouched and adds
the construction, bonus, and grand-prize shares to the round's grand prize
pool. -/
theorem purchase_pool_update_zero (g : Game) (r : Round) (ref c b l rf gp : Nat)
    (out : Game × Round) (h : purchase_pool_update g r ref 0 c b l rf gp = some out) :
    out.2.earnings_per_ore = r.earnings_per_ore
    ∧ out.2.available_ores = r.available_ores
    ∧ out.2.grand_prize_pool_balance = r.grand_prize_pool_balance + c + b + gp
    ∧ out.1.construction_rewards_pool_balance = g.construction_rewards_pool_balance
    ∧ out.1.bonus_rewards_pool_balance = g.bonus_rewards_pool_balance := by
  simp only [purchase_pool_update, Option.bind_eq_bind, Option.bind_eq_some,
    chkAdd_eq_some] at h
  obtain ⟨gr, hgr, lp, ⟨-, hlp⟩, g2, hg2, gp2, ⟨-, hgp2⟩, r2, hr2, h⟩ := h
  obtain rfl := Option.some.inj h
  obtain ⟨hgr1, hepo, hav, hgrand⟩ := purchase_pool_credit_zero g r c b gr hgr
  have hr2' := purchase_accrue_zero _ _ _ hr2
  have hg2' := purchase_referral_credit_preserves _ _ _ _ hg2
  subst hr2' hgp2
  refine ⟨hepo, hav, by rw [hgrand], ?_, ?_⟩
  · rw [hg2'.1, hgr1]
  · rw [hg2'.2.1, hgr1]

/-- Helper: with outstanding ore, `purchase_pool_update` accrues the round
accumulator by the construction share divided by the outstanding ore count
held before the purchase. -/
theorem purchase_pool_update_pos (g : Game) (r : Round) (ref co c b l rf gp : Nat)
    (out : Game × Round) (hco : 0 < co)
    (h : purchase_pool_update g r ref co c b l rf gp = some out) :
    out.2.earnings_per_ore = r.earnings_per_ore + c / max r.available_ores 1
    ∧ out.2.available_ores = r.available_ores := by
  simp only [purchase_pool_update, Option.bind_eq_bind, Option.bind_eq_some,
    chkAdd_eq_some] at h
  obtain ⟨gr, hgr, lp, ⟨-, hlp⟩, g2, hg2, gp2, ⟨-, hgp2⟩, r2, hr2, h⟩ := h
  obtain rfl := Option.some.inj h
  obtain ⟨hgr2, -, -⟩ := purchase_pool_credit_pos g r co c b gr hco hgr
  have hacc := purchase_accrue_pos _ _ _ _ hco hr2
  subst hgp2
  constructor
  · rw [hacc.1]
    simp [hgr2]
  · rw [hacc.2.1]
    simp [hgr2]

/-- Helper: the day-streak update leaves the player's ore, accumulator
snapshot, pending rewards, referrer, and team untouched. -/
theorem purchase_player_day_update_preserves (g : Game) (pd : PlayerData)
    (day : Nat) (pd' : PlayerData)
    (h : purchase_player_day_update g pd day = some pd') :
    pd'.available_ores = pd.available_ores
    ∧ pd'.earnings_per_ore = pd.earnings_per_ore
    ∧ pd'.collectable_construction_rewards = pd.collectable_construction_rewards
    ∧ pd'.referrer = pd.referrer
    ∧ pd'.team = pd.team := by
  simp only [purchase_player_day_update, Option.bind_eq_bind, Option.bind_eq_some] at h
  obtain ⟨d, hd, h⟩ := h
  obtain rfl := Option.some.inj h
  refine ⟨?_, ?_, ?_, ?_, ?_⟩ <;> (split <;> rfl)

/-- Helper: `purchase_round_update` adds the purchased ore to the round and
preserves the accumulator and grand prize pool. -/
theorem purchase_round_update_spec (r : Round) (pd : PlayerData)
    (player q t : Nat) (out : Round × PlayerData)
    (h : purchase_round_update r pd player q t = some out) :
    out.1.earnings_per_ore = r.earnings_per_ore
    ∧ out.1.available_ores = r.available_ores + q
    ∧ out.1.grand_prize_pool_balance = r.grand_prize_pool_balance := by
  simp only [purchase_round_update, Option.bind_eq_bind, Option.bind_eq_some,
    chkAdd32_eq_some] at h
  obtain ⟨av, ⟨-, hav⟩, so, ⟨-, -⟩, r2, hr2, pd2, hpd2, pav, ⟨-, -⟩, ppu, ⟨-, -⟩, h⟩ := h
  obtain rfl := Option.some.inj h
  have hp := update_end_time_preserves _ _ _ hr2
  exact ⟨hp.1, hp.2.1.trans hav, hp.2.2.1⟩

/-- Helper: the developer credit touches only consumption-related pools. -/
theorem purchase_developer_credit_preserves (g : Game) (d : Nat) (g' : Game)
    (h : purchase_developer_credit g d = some g') :
    g'.construction_rewards_pool_balance = g.construction_rewards_pool_balance
    ∧ g'.bonus_rewards_pool_balance = g.bonus_rewards_pool_balance
    ∧ g'.default_player = g.default_player := by
  rw [purchase_developer_credit] at h
  split at h
  · simp only [Option.bind_eq_bind, Option.bind_eq_some, chkSub_eq_some,
      chkAdd_eq_some] at h
    obtain ⟨a, ⟨-, -⟩, b, ⟨-, -⟩, c, ⟨-, -⟩, h⟩ := h
    obtain rfl := Option.some.inj h
    exact ⟨rfl, rfl, rfl⟩
  · obtain rfl := Option.some.inj h
    exact ⟨rfl, rfl, rfl⟩

/-- Helper: the consumption credit touches only consumption-related pools. -/
theorem purchase_consumption_credit_preserves (g : Game) (pd : PlayerData)
    (c : Nat) (out : Game × PlayerData)
    (h : purchase_consumption_credit g pd c = some out) :
    out.1.construction_rewards_pool_balance = g.construction_rewards_pool_balance
    ∧ out.1.bonus_rewards_pool_balance = g.bonus_rewards_pool_balance
    ∧ out.1.default_player = g.default_player := by
  rw [purchase_consumption_credit] at h
  split at h
  · simp only [Option.bind_eq_bind, Option.bind_eq_some, chkSub_eq_some,
      chkAdd_eq_some] at h
    obtain ⟨a, ⟨-, -⟩, b, ⟨-, -⟩, h⟩ := h
    obtain rfl := Option.some.inj h
    exact ⟨rfl, rfl, rfl⟩
  · obtain rfl := Option.some.inj h
    exact ⟨rfl, rfl, rfl⟩

/-- Helper: the consumption/developer reward moves touch neither the
construction nor the bonus pool. -/
theorem purchase_consumption_update_preserves (g : Game) (pd : PlayerData)
    (d c : Nat) (out : Game × PlayerData)
    (h : purchase_consumption_update g pd d c = some out) :
    out.1.construction_rewards_pool_balance = g.construction_rewards_pool_balance
    ∧ out.1.bonus_rewards_pool_balance = g.bonus_rewards_pool_balance
    ∧ out.1.default_player = g.default_player := by
  simp only [purchase_consumption_update, Option.bind_eq_bind, Option.bind_eq_some] at h
  obtain ⟨g2, hg2, h⟩ := h
  have h1 := purchase_developer_credit_preserves g d g2 hg2
  have h2 := purchase_consumption_credit_preserves g2 pd c out h
  exact ⟨h2.1.trans h1.1, h2.2.1.trans h1.2.1, h2.2.2.trans h1.2.2⟩

/-- Helper: with no outstanding ore the construction and bonus shares are
routed to the round vault rather than the game vault. -/
theorem purchase_transfer_amounts_zero (c b l rf gp : Nat) (out : Nat × Nat)
    (h : purchase_transfer_amounts 0 c b l rf gp = some out) :
    out.1 = l + rf ∧ out.2 = gp + c + b := by
  simp only [purchase_transfer_amounts, Option.bind_eq_bind, Option.bind_eq_some,
    chkAdd_eq_some] at h
  obtain ⟨t1, ⟨-, ht1⟩, h⟩ := h
  rw [if_neg (by omega : ¬ (0 : Nat) > 0)] at h
  simp only [Option.bind_eq_some, chkAdd_eq_some] at h
  obtain ⟨t2, ⟨-, ht2⟩, t3, ⟨-, ht3⟩, h⟩ := h
  obtain rfl := Option.some.inj h
  subst ht1 ht2 ht3
  exact ⟨rfl, rfl⟩

/-- Helper: with no outstanding ore, the settlement phase leaves the round
accumulator and the game's construction and bonus pools untouched and routes
the construction and bonus shares to the round's grand prize pool. -/
theorem purchase_settlement_zero (g : Game) (r : Round) (p : Period) (tm : Team)
    (pd rd : PlayerData) (player tk q t : Nat)
    (sh : Nat × Nat × Nat × Nat × Nat × Nat) (day : Nat) (s : PurchaseSettlement)
    (h0 : r.available_ores = 0)
    (h : purchase_settlement g r p tm pd rd player tk q t sh day = some s) :
    s.round.earnings_per_ore = r.earnings_per_ore
    ∧ s.round.available_ores = q
    ∧ s.round.grand_prize_pool_balance
        = r.grand_prize_pool_balance + sh.1 + sh.1 + sh.2.2.2.1
    ∧ s.game.construction_rewards_pool_balance = g.construction_rewards_pool_balance
    ∧ s.game.bonus_rewards_pool_balance = g.bonus_rewards_pool_balance := by
  simp only [purchase_settlement, Option.bind_eq_bind, Option.bind_eq_some] at h
  obtain ⟨pd1, hpd1, gr, hgr, rp, hrp, quad, hquad, gp, hgp, h⟩ := h
  obtain rfl := Option.some.inj h
  rw [h0] at hgr
  have hpu := purchase_pool_update_zero _ _ _ _ _ _ _ _ _ hgr
  have hru := purchase_round_update_spec _ _ _ _ _ _ hrp
  have hcu := purchase_consumption_update_preserves _ _ _ _ _ hgp
  refine ⟨hru.1.trans hpu.1, ?_, hru.2.2.trans hpu.2.2.1, hcu.1.trans hpu.2.2.2.1,
    hcu.2.1.trans hpu.2.2.2.2⟩
  rw [hru.2.1, hpu.2.1, h0, Nat.zero_add]

/-- Helper: with outstanding ore, the settlement phase accrues the round
accumulator by the construction share divided by the pre-purchase ore count. -/
theorem purchase_settlement_pos (g : Game) (r : Round) (p : Period) (tm : Team)
    (pd rd : PlayerData) (player tk q t : Nat)
    (sh : Nat × Nat × Nat × Nat × Nat × Nat) (day : Nat) (s : PurchaseSettlement)
    (h0 : 0 < r.available_ores)
    (h : purchase_settlement g r p tm pd rd player tk q t sh day = some s) :
    s.round.earnings_per_ore
      = r.earnings_per_ore + sh.1 / max r.available_ores 1 := by
  simp only [purchase_settlement, Option.bind_eq_bind, Option.bind_eq_some] at h
  obtain ⟨pd1, hpd1, gr, hgr, rp, hrp, quad, hquad, gp, hgp, h⟩ := h
  obtain rfl := Option.some.inj h
  have hpu := purchase_pool_update_pos _ _ _ _ _ _ _ _ _ _ h0 hgr
  have hru := purchase_round_update_spec _ _ _ _ _ _ hrp
  exact hru.1.trans hpu.1

/-- Helper: with no outstanding ore, a successful active purchase computes
the divide-then-multiply construction share, leaves the accumulator and the
game's construction and bonus pools unchanged, routes the construction and
bonus shares to the round's grand prize pool, and transfers them to the
round vault. -/
theorem purchase_active_zero (lam : Nat) (g : Game) (r : Round) (p : Period)
    (tm : Team) (pd rd : PlayerData) (player tk q t vb tb : Nat)
    (out : PurchaseResult) (h0 : r.available_ores = 0)
    (h : purchase_active lam g r p tm pd rd player tk q t vb tb = some out) :
    out.construction_rewards = lam * q / 100 * 25
    ∧ out.bonus_rewards = out.construction_rewards
    ∧ out.round.earnings_per_ore = r.earnings_per_ore
    ∧ out.round.available_ores = q
    ∧ out.round.grand_prize_pool_balance = r.grand_prize_pool_balance
        + out.construction_rewards + out.bonus_rewards + out.grand_prizes_rewards
    ∧ out.game.construction_rewards_pool_balance = g.construction_rewards_pool_balance
    ∧ out.game.bonus_rewards_pool_balance = g.bonus_rewards_pool_balance
    ∧ out.transfer_to_game_vault = out.lottery_rewards + out.referral_rewards
    ∧ out.transfer_to_round_vault = out.grand_prizes_rewards
        + out.construction_rewards + out.bonus_rewards := by
  rw [purchase_active] at h
  split at h
  · exact absurd h (by simp)
  split at h
  · exact absurd h (by simp)
  simp only [Option.bind_eq_bind, Option.bind_eq_some] at h
  obtain ⟨costs, hcosts, sh, hsh, day, hday, s, hs, tr, htr, h⟩ := h
  obtain rfl := Option.some.inj h
  rw [h0] at htr
  have hc := purchase_costs_spec _ _ _ _ _ hcosts
  have hshs := purchase_shares_spec _ _ _ hsh
  have hset := purchase_settlement_zero _ _ _ _ _ _ _ _ _ _ _ _ _ h0 hs
  have htz := purchase_transfer_amounts_zero _ _ _ _ _ _ htr
  refine ⟨?_, rfl, hset.1, hset.2.1, hset.2.2.1, hset.2.2.2.1, hset.2.2.2.2,
    htz.1, ?_⟩
  · show sh.1 = lam * q / 100 * 25
    rw [hshs.1, hc]
  · show tr.2 = sh.2.2.2.1 + sh.1 + sh.1
    rw [htz.2]

/-- Helper: with outstanding ore, a successful active purchase computes the
divide-then-multiply construction share and accrues the accumulator by that
share divided by the pre-purchase ore count. -/
theorem purchase_active_pos (lam : Nat) (g : Game) (r : Round) (p : Period)
    (tm : Team) (pd rd : PlayerData) (player tk q t vb tb : Nat)
    (out : PurchaseResult) (h0 : 0 < r.available_ores)
    (h : purchase_active lam g r p tm pd rd player tk q t vb tb = some out) :
    out.construction_rewards = lam * q / 100 * 25
    ∧ out.round.earnings_per_ore
        = r.earnings_per_ore + out.construction_rewards / max r.available_ores 1 := by
  rw [purchase_active] at h
  split at h
  · exact absurd h (by simp)
  split at h
  · exact absurd h (by simp)
  simp only [Option.bind_eq_bind, Option.bind_eq_some] at h
  obtain ⟨costs, hcosts, sh, hsh, day, hday, s, hs, tr, htr, h⟩ := h
  obtain rfl := Option.some.inj h
  have hc := purchase_costs_spec _ _ _ _ _ hcosts
  have hshs := purchase_shares_spec _ _ _ hsh
  have hset := purchase_settlement_pos _ _ _ _ _ _ _ _ _ _ _ _ _ h0 hs
  constructor
  · show sh.1 = lam * q / 100 * 25
    rw [hshs.1, hc]
  · show s.round.earnings_per_ore
      = r.earnings_per_ore + sh.1 / max r.available_ores 1
    exact hset

/-- Helper: a call with a positive purchase amount runs the active-purchase
path after bumping the event nonce. -/
theorem purchase_core_active (lam : Nat) (g : Game) (r : Round) (p : Period)
    (tm : Team) (pd rd : PlayerData) (player tk q t slot vb tb : Nat)
    (out : PurchaseResult) (hq : 0 < q)
    (h : purchase_core lam g r p tm pd rd player tk q t slot vb tb = some out) :
    ∃ g1, g.increment_event_nonce = some g1
      ∧ purchase_active lam g1 r p tm pd rd player tk q t vb tb = some out := by
  rw [purchase_core] at h
  split at h
  · exact absurd h (by simp)
  split at h
  · exact absurd h (by simp)
  simp only [Option.bind_eq_bind, Option.bind_eq_some] at h
  obtain ⟨g1, hg1, h⟩ := h
  rw [if_neg (fun hc => absurd hc.2 (by omega))] at h
  exact ⟨g1, hg1, h⟩

/-- C1: starting from a round with no outstanding ore, a purchase of 10 ores
at unit price P allocates the construction share (P*10)/100*25 with the
division performed before the multiplication, leaves the round's
earnings_per_ore unchanged, and brings the outstanding ore count to 10, so
that a subsequent purchase accrues earnings_per_ore by its own construction
share divided by 10. -/
theorem c1_purchase_settlement_scenario (P : Nat) (g : Game) (r : Round)
    (pp : Period) (tm : Team) (pd rd : PlayerData)
    (player tk t slot vb tb : Nat) (out : PurchaseResult)
    (P2 : Nat) (g2 : Game) (pp2 : Period) (tm2 : Team) (pd2 rd2 : PlayerData)
    (player2 tk2 q2 t2 slot2 vb2 tb2 : Nat) (out2 : PurchaseResult)
    (h0 : r.available_ores = 0)
    (h1 : purchase_core P g r pp tm pd rd player tk 10 t slot vb tb = some out)
    (hq2 : 0 < q2)
    (h2 : purchase_core P2 g2 out.round pp2 tm2 pd2 rd2 player2 tk2 q2 t2 slot2
      vb2 tb2 = some out2) :
    out.construction_rewards = P * 10 / 100 * 25
    ∧ out.round.earnings_per_ore = r.earnings_per_ore
    ∧ out.round.available_ores = 10
    ∧ out2.round.earnings_per_ore
        = out.round.earnings_per_ore + out2.construction_rewards / 10 := by
  obtain ⟨ga, -, hact⟩ := purchase_core_active _ _ _ _ _ _ _ _ _ _ _ _ _ _ _
    (by omega) h1
  have hz := purchase_active_zero _ _ _ _ _ _ _ _ _ _ _ _ _ _ h0 hact
  obtain ⟨gb, -, hact2⟩ := purchase_core_active _ _ _ _ _ _ _ _ _ _ _ _ _ _ _
    hq2 h2
  have hp := purchase_active_pos _ _ _ _ _ _ _ _ _ _ _ _ _ _
    (by rw [hz.2.2.2.1]; omega) hact2
  refine ⟨hz.1, hz.2.2.1, hz.2.2.2.1, ?_⟩
  rw [hp.2, hz.2.2.2.1]
  norm_num

/-- C1 witness: the theorem applied to a concrete pair of purchases. -/
theorem c1_purchase_settlement_scenario_witness :
    c1Out.construction_rewards = 100 * 10 / 100 * 25
    ∧ c1Out.round.earnings_per_ore = c1Round.earnings_per_ore
    ∧ c1Out.round.available_ores = 10
    ∧ c1Out2.round.earnings_per_ore
        = c1Out.round.earnings_per_ore + c1Out2.construction_rewards / 10 :=
  c1_purchase_settlement_scenario 100 c1Game c1Round {} {} c1Buyer {}
    100 7 5 900 0 1000000 c1Out
    100 c1Out.game c1Out.period c1Out.team c1Buyer2 {}
    200 7 20 6 901 0 1000000 c1Out2
    (by decide) (by decide) (by decide) (by decide)

/-- C10: a purchase made while the round has no outstanding ore adds the
construction share and the equal bonus share to the round's grand prize
pool, transfers them to the round vault rather than the game vault, leaves
the game's construction and bonus pools unchanged, and leaves the round's
earnings_per_ore unchanged. -/
theorem c10_zero_ore_purchase_frame (lam : Nat) (g : Game) (r : Round)
    (pp : Period) (tm : Team) (pd rd : PlayerData)
    (player tk q t slot vb tb : Nat) (out : PurchaseResult)
    (h0 : r.available_ores = 0) (hq : 0 < q)
    (h : purchase_core lam g r pp tm pd rd player tk q t slot vb tb = some out) :
    out.bonus_rewards = out.construction_rewards
    ∧ out.round.grand_prize_pool_balance = r.grand_prize_pool_balance
        + out.construction_rewards + out.bonus_rewards + out.grand_prizes_rewards
    ∧ out.transfer_to_round_vault = out.grand_prizes_rewards
        + out.construction_rewards + out.bonus_rewards
    ∧ out.transfer_to_game_vault = out.lottery_rewards + out.referral_rewards
    ∧ out.game.construction_rewards_pool_balance = g.construction_rewards_pool_balance
    ∧ out.game.bonus_rewards_pool_balance = g.bonus_rewards_pool_balance
    ∧ out.round.earnings_per_ore = r.earnings_per_ore := by
  obtain ⟨ga, hga, hact⟩ := purchase_core_active _ _ _ _ _ _ _ _ _ _ _ _ _ _ _
    hq h
  have hz := purchase_active_zero _ _ _ _ _ _ _ _ _ _ _ _ _ _ h0 hact
  have hnonce := increment_event_nonce_preserves _ _ hga
  exact ⟨hz.2.1, hz.2.2.2.2.1, hz.2.2.2.2.2.2.2.2, hz.2.2.2.2.2.2.2.1,
    hz.2.2.2.2.2.1.trans hnonce.1, hz.2.2.2.2.2.2.1.trans hnonce.2.1, hz.2.2.1⟩

/-- C10 witness: the theorem applied to a concrete zero-ore purchase. -/
theorem c10_zero_ore_purchase_frame_witness :
    c10Out.bonus_rewards = c10Out.construction_rewards
    ∧ c10Out.round.grand_prize_pool_balance = c1Round.grand_prize_pool_balance
        + c10Out.construction_rewards + c10Out.bonus_rewards
        + c10Out.grand_prizes_rewards
    ∧ c10Out.transfer_to_round_vault = c10Out.grand_prizes_rewards
        + c10Out.construction_rewards + c10Out.bonus_rewards
    ∧ c10Out.transfer_to_game_vault
        = c10Out.lottery_rewards + c10Out.referral_rewards
    ∧ c10Out.game.construction_rewards_pool_balance
        = c1Game.construction_rewards_pool_balance
    ∧ c10Out.game.bonus_rewards_pool_balance = c1Game.bonus_rewards_pool_balance
    ∧ c10Out.round.earnings_per_ore = c1Round.earnings_per_ore :=
  c10_zero_ore_purchase_frame 100 c1Game c1Round {} {} c1Buyer {}
    100 7 4 5 900 50 1000000 c10Out (by decide) (by decide) (by decide)

/-- C6 counterexample: creating a period with team rewards 4 sets the
second-place share to `(4/2)/5*3 = 0`, not the specified
`(4/2)*3/5 = 1`. -/
theorem c6_counterexample :
    Period.init 1 0 100 4 10 0 0 = some c6BadPeriod
    ∧ c6BadPeriod.team_first_place_rewards = 2
    ∧ c6BadPeriod.team_second_place_rewards = 0
    ∧ c6BadPeriod.team_first_place_rewards * 3 / 5 = 1
    ∧ c6BadPeriod.team_second_place_rewards
        ≠ c6BadPeriod.team_first_place_rewards * 3 / 5 := by
  decide

/-- C6 (amended): period creation splits the team rewards as
`team_first = team_rewards / 2`, `team_second = team_first / 5 * 3` (divide
by 5 first, then multiply by 3), and
`team_third = team_rewards - team_first - team_second`; and a successful
leaderboard distribution with a non-default winner pays the period's entire
individual reward to the player listed first on `top_player_list`. -/
theorem c6_period_split_amended :
    (∀ pn st ld tr ir dp dt p,
      Period.init pn st ld tr ir dp dt = some p →
      p.team_first_place_rewards = tr / 2
      ∧ p.team_second_place_rewards = tr / 2 / 5 * 3
      ∧ p.team_third_place_rewards
          = tr - p.team_first_place_rewards - p.team_second_place_rewards)
    ∧ (∀ g period tf ts tt wd w k1 k2 k3 out,
      distribute_leaderboard_rewards_core g period tf ts tt wd w k1 k2 k3
        = some out →
      w ≠ g.default_player →
      ∃ p0, period.top_player_list.get? 0 = some p0 ∧ w = p0.player
        ∧ out.individual_paid = period.individual_rewards
        ∧ out.winner_data.collected_individual_rewards
            = wd.collected_individual_rewards + period.individual_rewards) := by
  constructor
  · intro pn st ld tr ir dp dt p h
    simp only [Period.init, Option.bind_eq_bind, Option.bind_eq_some,
      chkAdd_eq_some, chkDiv_eq_some, chkMul_eq_some, chkSub_eq_some] at h
    obtain ⟨et, ⟨-, -⟩, f, ⟨-, hf⟩, q, ⟨-, hq⟩, s2, ⟨-, hs2⟩, s, ⟨-, hs⟩,
      t3, ⟨-, ht3⟩, h⟩ := h
    obtain rfl := Option.some.inj h
    subst hf hq hs2 hs ht3
    exact ⟨rfl, rfl, rfl⟩
  · intro g period tf ts tt wd w k1 k2 k3 out h hw0
    simp only [distribute_leaderboard_rewards_core, Option.bind_eq_bind,
      Option.bind_eq_some] at h
    obtain ⟨t0, ht0, t1, ht1, t2, ht2, p0, hp0, h⟩ := h
    split at h
    · exact absurd h (by simp)
    split at h
    · exact absurd h (by simp)
    split at h
    · exact absurd h (by simp)
    split at h
    · exact absurd h (by simp)
    rename_i hw
    have hw' : w = p0.player := not_not.mp hw
    simp only [Option.bind_eq_bind, Option.bind_eq_some] at h
    obtain ⟨pm, hpm, ind, hind, d1, hd1, d2, hd2, d3, hd3, gf, hgf, h⟩ := h
    obtain rfl := Option.some.inj h
    rw [Period.mark_distribution_completed] at hpm
    split at hpm
    · exact absurd hpm (by simp)
    obtain rfl := Option.some.inj hpm
    rw [distribute_individual_rewards, if_neg hw0] at hind
    simp only [PlayerData.collect_individual_rewards, Option.bind_eq_bind,
      Option.bind_eq_some, chkAdd_eq_some] at hind
    obtain ⟨d, ⟨-, -⟩, wcol, ⟨c, ⟨-, hc⟩, hwcol⟩, hind⟩ := hind
    obtain rfl := Option.some.inj hwcol
    obtain rfl := Option.some.inj hind
    subst hc
    exact ⟨p0, hp0, hw', rfl, rfl⟩

/-- C6 witness: the amended theorem applied to a period created with team
rewards 100 and to a concrete leaderboard distribution paying winner 5. -/
theorem c6_period_split_amended_witness :
    (c6Period.team_first_place_rewards = 100 / 2
      ∧ c6Period.team_second_place_rewards = 100 / 2 / 5 * 3
      ∧ c6Period.team_third_place_rewards = 100
          - c6Period.team_first_place_rewards - c6Period.team_second_place_rewards)
    ∧ (∃ p0, c6DistPeriod.top_player_list.get? 0 = some p0 ∧ 5 = p0.player
        ∧ c6Dist.individual_paid = c6DistPeriod.individual_rewards
        ∧ c6Dist.winner_data.collected_individual_rewards
            = ({} : PlayerData).collected_individual_rewards
              + c6DistPeriod.individual_rewards) :=
  ⟨c6_period_split_amended.1 1 0 100 100 10 0 0 c6Period (by decide),
   c6_period_split_amended.2 {} c6DistPeriod {} {} {} {} 5 1 2 3 c6Dist
     (by decide) (by decide)⟩

/-- C7: `calculate_prorated_interest` equals
`principal / 100 * rate * duration / 31536000` with truncating division in
exactly that order; a one-year stake of 1,000,000 at 100 percent APR
reserves 1,000,000 reward units, and requesting early unlock after 30 days
at the 20 percent early rate recomputes the rewards to 16,438, burns the
983,562 difference, and shortens the unlock time to now plus the early
unlock duration. -/
theorem c7_early_unlock_clawback :
    (∀ p d r v, calculate_prorated_interest p d r = some v →
      v = p / 100 * r * d / 31536000)
    ∧ calculate_prorated_interest 1000000 31536000 100 = some 1000000
    ∧ calculate_prorated_interest 1000000 2592000 20 = some 16438
    ∧ c7Result.stake_order.token_rewards = 16438
    ∧ c7Result.burned_token_rewards = 983562
    ∧ c7Result.stake_pool.burned_token_rewards = 983562
    ∧ c7Result.stake_order.is_early_unstaked = true
    ∧ c7Result.stake_order.unstaked_timestamp = 2592000 + EARLY_UNLOCK_DURATION := by
  refine ⟨?_, by decide, by decide, by decide, by decide, by decide, by decide,
    by decide⟩
  intro p d r v h
  simp only [calculate_prorated_interest, Option.bind_eq_bind, Option.bind_eq_some,
    chkDiv_eq_some, chkMul_eq_some, BASIS_POINTS_DENOMINATOR,
    SECONDS_PER_YEAR] at h
  obtain ⟨a, ⟨-, ha⟩, b, ⟨-, hb⟩, c, ⟨-, hc⟩, -, hv⟩ := h
  subst ha hb hc hv
  rfl

/-- C7 witness: the universally quantified part of the theorem applied to the
30-day early-unlock recomputation. -/
theorem c7_early_unlock_clawback_witness :
    calculate_prorated_interest 1000000 2592000 20 = some 16438
    ∧ 16438 = 1000000 / 100 * 20 * 2592000 / 31536000 :=
  ⟨by decide, c7_early_unlock_clawback.1 1000000 2592000 20 16438 (by decide)⟩

/-- C8: on bounded symbol ids the deployed paytable agrees with the
specification's paytable; every successful reveal stores the three reel
symbols derived from the random bytes, sets the multiplier by the paytable,
and pays the draw cost times the multiplier; symbols 1,1,1 pay 100 and
1,2,7 pay 6. -/
theorem c8_lottery_paytable_spec :
    (∀ s1 s2 s3 : Nat, calculate_multiplier s1 s2 s3 = spec_multiplier s1 s2 s3)
    ∧ (∀ g pd seed b0 b1 b2 out,
      reveal_draw_lottery_result_core g pd seed b0 b1 b2 = some out →
      out.player_data.spin_symbols
        = [get_symbol_id b0, get_symbol_id b1, get_symbol_id b2]
      ∧ out.multiplier
          = calculate_multiplier (get_symbol_id b0) (get_symbol_id b1)
              (get_symbol_id b2)
      ∧ out.lottery_rewards = ONCE_DRAW_LOTTERY_VOUCHER_COST * out.multiplier)
    ∧ calculate_multiplier 1 1 1 = 100
    ∧ calculate_multiplier 1 2 7 = 6 := by
  refine ⟨?_, ?_, by decide, by decide⟩
  · intro s1 s2 s3
    have e1 : ∀ x : Nat, x ∈ ([1, 2] : List Nat) ↔ (x = 1 ∨ x = 2) := by
      intro x
      simp
    have e3 : ∀ x : Nat, x ∈ ([3, 4, 5] : List Nat) ↔ (3 ≤ x ∧ x ≤ 5) := by
      intro x
      simp only [List.mem_cons, List.mem_singleton, List.not_mem_nil, or_false]
      omega
    have e6 : ∀ x : Nat, x ∈ ([6, 7, 8, 9] : List Nat) ↔ (6 ≤ x ∧ x ≤ 9) := by
      intro x
      simp only [List.mem_cons, List.mem_singleton, List.not_mem_nil, or_false]
      omega
    have ec : ∀ c : Nat, (c = 1 ∨ c = 2) ↔ (0 < c ∧ c < 3) := by
      intro c
      omega
    simp only [calculate_multiplier, spec_multiplier, e1, e3, e6, ec]
  intro g pd seed b0 b1 b2 out h
  rw [reveal_draw_lottery_result_core] at h
  split at h
  · exact absurd h (by simp)
  split at h
  · exact absurd h (by simp)
  simp only [Option.bind_eq_bind, Option.bind_eq_some, chkMul_eq_some] at h
  obtain ⟨lr, ⟨-, hlr⟩, h⟩ := h
  split at h
  · simp only [Option.bind_eq_some, chkSub_eq_some, chkAdd_eq_some] at h
    obtain ⟨a, ⟨-, -⟩, b, ⟨-, -⟩, c, ⟨-, -⟩, gf, hgf, h⟩ := h
    obtain rfl := Option.some.inj h
    exact ⟨rfl, rfl, by rw [hlr]⟩
  · simp only [Option.bind_eq_some] at h
    obtain ⟨gf, hgf, h⟩ := h
    obtain rfl := Option.some.inj h
    exact ⟨rfl, rfl, by rw [hlr]⟩

/-- C8 witness: the reveal theorem applied to a concrete draw with random
bytes 33, 2, 7. -/
theorem c8_lottery_paytable_spec_witness :
    c8Out.player_data.spin_symbols
        = [get_symbol_id 33, get_symbol_id 2, get_symbol_id 7]
    ∧ c8Out.multiplier
        = calculate_multiplier (get_symbol_id 33) (get_symbol_id 2)
            (get_symbol_id 7)
    ∧ c8Out.lottery_rewards = ONCE_DRAW_LOTTERY_VOUCHER_COST * c8Out.multiplier :=
  c8_lottery_paytable_spec.2.1 c8Game c8Player 5 33 2 7 c8Out (by decide)

section TopKLemmas

variable {α : Type} (metric : α → Nat)

/-- `orderedInsert` of an earlier arrival commutes with the stable-last
insertion of a later one. -/
theorem orderedInsert_insEnd (a e : α) (l : List α) :
    List.orderedInsert (metricDesc metric) a (insEnd metric e l)
      = insEnd metric e (List.orderedInsert (metricDesc metric) a l) := by
  induction l with
  | nil =>
      by_cases hea : metric e ≤ metric a
      · simp [insEnd, List.orderedInsert, metricDesc, hea, Nat.not_lt.mpr hea]
      · simp [insEnd, List.orderedInsert, metricDesc, hea, Nat.lt_of_not_le hea]
  | cons b t ih =>
      by_cases hbe : metric b < metric e <;>
        by_cases hae : metric a < metric e <;>
          by_cases hba : metric b ≤ metric a <;>
            by_cases hea : metric e ≤ metric a <;>
              first
                | omega
                | simp only [insEnd, List.orderedInsert, metricDesc, hbe, hae,
                    hba, hea, if_true, if_false, ite_true, ite_false, ih]

/-- Stable insertion sort of a list with a last element appended: the last
element is inserted after all equal-metric elements. -/
theorem insertionSort_append_last (e : α) (l : List α) :
    (l ++ [e]).insertionSort (metricDesc metric)
      = insEnd metric e (l.insertionSort (metricDesc metric)) := by
  induction l with
  | nil => rfl
  | cons a t ih =>
      simp only [List.cons_append, List.insertionSort, List.append_eq]
      rw [ih, orderedInsert_insEnd]

/-- Truncating after a stable-last insertion into a truncated list agrees
with truncating after inserting into the full list. -/
theorem take_insEnd (e : α) : ∀ (s : List α) (n : Nat),
    (insEnd metric e (s.take n)).take n = (insEnd metric e s).take n := by
  intro s
  induction s with
  | nil =>
      intro n
      rw [List.take_nil]
  | cons b t ih =>
      intro n
      match n with
      | 0 => rfl
      | Nat.succ m =>
          have hbt : ∀ (j : Nat), List.take j (b :: List.take j t)
              = List.take j (b :: t) := by
            intro j
            match j with
            | 0 => rfl
            | i + 1 =>
                simp only [List.take_succ_cons, List.take_take]
                rw [min_eq_left (by omega)]
          by_cases hbe : metric b < metric e
          · simp only [List.take_succ_cons, insEnd, if_pos hbe]
            rw [hbt m]
          · simp only [List.take_succ_cons, insEnd, if_neg hbe]
            rw [ih m]

/-- Find-or-insert with a key absent from the list appends a new entry. -/
theorem upsertBy_not_mem (key : α → Nat) (set : α → Nat → α)
    (mk : Nat → Nat → α) (l : List α) (k v : Nat) (h : k ∉ l.map key) :
    upsertBy key set mk l k v = l ++ [mk k v] := by
  induction l with
  | nil => rfl
  | cons e t ih =>
      simp only [List.map_cons, List.mem_cons, not_or] at h
      rw [upsertBy, if_neg (fun he => h.1 he.symm), List.cons_append,
        ih h.2]

/-- One leaderboard update is truncation of the sorted find-or-insert. -/
theorem updateTopBy_eq_take (key metric : α → Nat) (set : α → Nat → α)
    (mk : Nat → Nat → α) (l : List α) (k v cap : Nat) :
    updateTopBy key metric set mk l k v cap
      = ((upsertBy key set mk l k v).insertionSort (metricDesc metric)).take cap := by
  simp only [updateTopBy]
  split
  · rfl
  · exact (List.take_of_length_le (by omega)).symm

/-- The result of a leaderboard update is sorted descending and at most
`cap` long. -/
theorem updateTopBy_sorted_le (key metric : α → Nat) (set : α → Nat → α)
    (mk : Nat → Nat → α) (l : List α) (k v cap : Nat) :
    (updateTopBy key metric set mk l k v cap).Sorted (metricDesc metric)
    ∧ (updateTopBy key metric set mk l k v cap).length ≤ cap := by
  rw [updateTopBy_eq_take]
  constructor
  · exact List.Pairwise.sublist (List.take_sublist _ _)
      (List.sorted_insertionSort _ _)
  · rw [List.length_take]
    exact min_le_left _ _

/-- Folding leaderboard updates with pairwise-fresh keys over a truncated
sorted accumulator computes the truncated stable sort of all entries. -/
theorem foldUpdate_take_sort (key metric : α → Nat) (set : α → Nat → α)
    (mk : Nat → Nat → α) (hkey : ∀ k v, key (mk k v) = k) (cap : Nat) :
    ∀ (us : List (Nat × Nat)) (done : List α),
      (us.map Prod.fst).Nodup →
      (∀ k, k ∈ us.map Prod.fst → k ∉ done.map key) →
      us.foldl (fun l u => updateTopBy key metric set mk l u.1 u.2 cap)
          ((done.insertionSort (metricDesc metric)).take cap)
        = ((done ++ us.map fun u => mk u.1 u.2).insertionSort
            (metricDesc metric)).take cap := by
  intro us
  induction us with
  | nil =>
      intro done _ _
      simp
  | cons u rest ih =>
      intro done hnd hdisj
      have hfresh : u.1 ∉ ((done.insertionSort (metricDesc metric)).take cap).map key := by
        intro hmem
        have hsub : List.Sublist
            (((done.insertionSort (metricDesc metric)).take cap).map key)
            ((done.insertionSort (metricDesc metric)).map key) :=
          (List.take_sublist _ _).map key
        have h1 : u.1 ∈ (done.insertionSort (metricDesc metric)).map key :=
          hsub.mem hmem
        have h2 : u.1 ∈ done.map key :=
          ((List.perm_insertionSort (metricDesc metric) done).map key).mem_iff.mp h1
        exact hdisj u.1 (by simp) h2
      simp only [List.foldl_cons]
      rw [updateTopBy_eq_take, upsertBy_not_mem _ _ _ _ _ _ hfresh,
        insertionSort_append_last,
        List.Sorted.insertionSort_eq (List.Pairwise.sublist
          (List.take_sublist _ _) (List.sorted_insertionSort _ _)),
        take_insEnd, ← insertionSort_append_last]
      have hnd0 : (u.1 :: rest.map Prod.fst).Nodup := by
        rw [← List.map_cons]
        exact hnd
      have hnd' : (rest.map Prod.fst).Nodup := (List.nodup_cons.mp hnd0).2
      have hhead : u.1 ∉ rest.map Prod.fst := (List.nodup_cons.mp hnd0).1
      have hdisj' : ∀ k, k ∈ rest.map Prod.fst → k ∉ (done ++ [mk u.1 u.2]).map key := by
        intro k hk
        simp only [List.map_append, List.map_cons, List.map_nil, List.mem_append,
          List.mem_singleton, hkey, not_or]
        refine ⟨hdisj k (by simp [hk]), ?_⟩
        intro hke
        exact hhead (hke ▸ hk)
      have := ih (done ++ [mk u.1 u.2]) hnd' hdisj'
      rw [this, List.append_assoc]
      simp

end TopKLemmas

/-- Transport: folding player updates over a period folds `updateTopBy` over
its top-player list. -/
theorem fold_top_player_updates_list (us : List (Nat × Nat)) : ∀ (p : Period),
    (fold_top_player_updates p us).top_player_list
      = us.foldl (fun l u => updateTopBy TopPlayerAccount.player
          TopPlayerAccount.purchased_ores
          (fun e v => { e with purchased_ores := v }) (fun k v => ⟨k, v⟩)
          l u.1 u.2 PLAYER_WINNERS_COUNT) p.top_player_list := by
  induction us with
  | nil =>
      intro p
      rfl
  | cons u rest ih =>
      intro p
      simp only [fold_top_player_updates, List.foldl_cons] at *
      rw [ih]
      rfl

/-- Transport: folding team updates over a period folds `updateTopBy` over
its top-team list. -/
theorem fold_top_team_updates_list (us : List (Nat × Nat)) : ∀ (p : Period),
    (fold_top_team_updates p us).top_team_list
      = us.foldl (fun l u => updateTopBy TopTeamAccount.team
          TopTeamAccount.purchased_ores
          (fun e v => { e with purchased_ores := v }) (fun k v => ⟨k, v⟩)
          l u.1 u.2 TEAM_WINNERS_COUNT) p.top_team_list := by
  induction us with
  | nil =>
      intro p
      rfl
  | cons u rest ih =>
      intro p
      simp only [fold_top_team_updates, List.foldl_cons] at *
      rw [ih]
      rfl

/-- A single top-player update leaves the list sorted descending and at most
10 long. -/
theorem update_top_player_sorted_le (p : Period) (k v : Nat) :
    (p.update_top_player k v).top_player_list.Sorted
        (metricDesc TopPlayerAccount.purchased_ores)
    ∧ (p.update_top_player k v).top_player_list.length ≤ 10 :=
  updateTopBy_sorted_le TopPlayerAccount.player TopPlayerAccount.purchased_ores
    (fun e v => { e with purchased_ores := v }) (fun k v => ⟨k, v⟩)
    p.top_player_list k v PLAYER_WINNERS_COUNT

/-- A single top-team update leaves the list sorted descending and at most
10 long. -/
theorem update_top_team_sorted_le (p : Period) (k v : Nat) :
    (p.update_top_team_list k v).top_team_list.Sorted
        (metricDesc TopTeamAccount.purchased_ores)
    ∧ (p.update_top_team_list k v).top_team_list.length ≤ 10 :=
  updateTopBy_sorted_le TopTeamAccount.team TopTeamAccount.purchased_ores
    (fun e v => { e with purchased_ores := v }) (fun k v => ⟨k, v⟩)
    p.top_team_list k v TEAM_WINNERS_COUNT

/-- C9 counterexample: after the update sequence `c9ExampleUpdates` the
top-player list is full (length 10) yet fails the coverage check that any
list containing the 10 highest-metric entries seen so far must satisfy: key
11 was last seen with metric 5, but it is neither listed nor dominated,
since key 1 sits on the list with metric 1. -/
theorem c9_counterexample :
    top_player_list_covers c9ExampleUpdates
        (fold_top_player_updates c9EmptyPeriod c9ExampleUpdates).top_player_list
      = false
    ∧ (fold_top_player_updates c9EmptyPeriod
        c9ExampleUpdates).top_player_list.length = 10 := by
  decide

/-- C9 (amended): after any nonempty sequence of leaderboard updates both
lists are sorted descending by metric with length at most 10; and when every
updated key is distinct, the lists starting from empty compute exactly the
first 10 entries of the stable descending sort of all entries seen, so ties
are broken by insertion order. -/
theorem c9_top_k_amended :
    (∀ (p : Period) (us : List (Nat × Nat)), us ≠ [] →
      (fold_top_player_updates p us).top_player_list.Sorted
          (metricDesc TopPlayerAccount.purchased_ores)
      ∧ (fold_top_player_updates p us).top_player_list.length ≤ 10
      ∧ (fold_top_team_updates p us).top_team_list.Sorted
          (metricDesc TopTeamAccount.purchased_ores)
      ∧ (fold_top_team_updates p us).top_team_list.length ≤ 10)
    ∧ (∀ (p : Period) (us : List (Nat × Nat)),
      p.top_player_list = [] → (us.map Prod.fst).Nodup →
      (fold_top_player_updates p us).top_player_list
        = ((us.map fun u => (⟨u.1, u.2⟩ : TopPlayerAccount)).insertionSort
            (metricDesc TopPlayerAccount.purchased_ores)).take 10)
    ∧ (∀ (p : Period) (us : List (Nat × Nat)),
      p.top_team_list = [] → (us.map Prod.fst).Nodup →
      (fold_top_team_updates p us).top_team_list
        = ((us.map fun u => (⟨u.1, u.2⟩ : TopTeamAccount)).insertionSort
            (metricDesc TopTeamAccount.purchased_ores)).take 10) := by
  refine ⟨?_, ?_, ?_⟩
  · intro p us hne
    obtain ⟨L, b, hcat⟩ := us.eq_nil_or_concat.resolve_left hne
    rw [List.concat_eq_append] at hcat
    subst hcat
    have hp : fold_top_player_updates p (L ++ [b])
        = (fold_top_player_updates p L).update_top_player b.1 b.2 := by
      simp [fold_top_player_updates, List.foldl_append]
    have ht : fold_top_team_updates p (L ++ [b])
        = (fold_top_team_updates p L).update_top_team_list b.1 b.2 := by
      simp [fold_top_team_updates, List.foldl_append]
    rw [hp, ht]
    exact ⟨(update_top_player_sorted_le _ _ _).1,
      (update_top_player_sorted_le _ _ _).2,
      (update_top_team_sorted_le _ _ _).1,
      (update_top_team_sorted_le _ _ _).2⟩
  · intro p us hempty hnd
    rw [fold_top_player_updates_list, hempty]
    have h := foldUpdate_take_sort TopPlayerAccount.player
      TopPlayerAccount.purchased_ores (fun e v => { e with purchased_ores := v })
      (fun k v => ⟨k, v⟩) (fun k v => rfl) PLAYER_WINNERS_COUNT us []
      hnd (fun k _ hk => by simp at hk)
    simpa using h
  · intro p us hempty hnd
    rw [fold_top_team_updates_list, hempty]
    have h := foldUpdate_take_sort TopTeamAccount.team
      TopTeamAccount.purchased_ores (fun e v => { e with purchased_ores := v })
      (fun k v => ⟨k, v⟩) (fun k v => rfl) TEAM_WINNERS_COUNT us []
      hnd (fun k _ hk => by simp at hk)
    simpa using h

/-- C9 witness: the amended theorem applied to a concrete three-update
sequence with distinct keys. -/
theorem c9_top_k_amended_witness :
    ((fold_top_player_updates c9EmptyPeriod c9WitnessUpdates).top_player_list.Sorted
        (metricDesc TopPlayerAccount.purchased_ores)
      ∧ (fold_top_player_updates c9EmptyPeriod
          c9WitnessUpdates).top_player_list.length ≤ 10
      ∧ (fold_top_team_updates c9EmptyPeriod c9WitnessUpdates).top_team_list.Sorted
          (metricDesc TopTeamAccount.purchased_ores)
      ∧ (fold_top_team_updates c9EmptyPeriod
          c9WitnessUpdates).top_team_list.length ≤ 10)
    ∧ (fold_top_player_updates c9EmptyPeriod c9WitnessUpdates).top_player_list
        = ((c9WitnessUpdates.map fun u => (⟨u.1, u.2⟩ : TopPlayerAccount)).insertionSort
            (metricDesc TopPlayerAccount.purchased_ores)).take 10 :=
  ⟨c9_top_k_amended.1 c9EmptyPeriod c9WitnessUpdates (by decide),
   c9_top_k_amended.2.1 c9EmptyPeriod c9WitnessUpdates rfl (by decide)⟩

end DoomsdayArk